import Mathlib

/-!
Verification of the incremental response streaming pipeline of the
`ferrous-llm` repository (crates `llm-openai`, `llm-anthropic`, `llm-ollama`
and `ferrous-llm-ollama`).

Each provider's `chat_stream` method spawns a task that drives a chunked
network byte stream through a line buffer, a provider-specific frame
handler, a JSON decoder, and a tokio mpsc channel.  This file shallowly
embeds those stream-task bodies: raw bytes are `List Nat` (one `Nat` per
byte), Rust `String` values are Lean `String`s, `serde_json` is modelled by
an executable JSON parser plus per-struct decoders that mirror the derived
`Deserialize` implementations (required fields, `Option` fields, integer
range checks, duplicate-field rejection, unknown fields ignored), and the
items placed on the channel are a `List` of content/error items where the
end of the list stands for channel closure.  The consumer is modelled as
holding its receiver for the whole run, so the receiver-dropped early
returns (`tx.send(..).is_err()`) never fire; every property here
quantifies over that regime.
-/

/-! ## Rust string primitives used by the stream tasks -/

/-- Model of Rust `str::starts_with` for the ASCII patterns used by the
stream tasks: byte-prefix and char-prefix coincide there. -/
def strStartsWith (s p : String) : Bool :=
  p.data.isPrefixOf s.data

/-- Model of byte-slicing `&line[n..]` at a char boundary (the source only
slices off the 6-byte ASCII prefix "data: "). -/
def strDrop (s : String) (n : Nat) : String :=
  String.mk (s.data.drop n)

/-- Model of Rust `str::strip_prefix`. -/
def stripLeading (s p : String) : Option String :=
  if strStartsWith s p then some (strDrop s p.data.length) else none

/-- The Unicode `White_Space` property, as used by Rust `char::is_whitespace`
(and hence by `str::trim` in the stream tasks). -/
def rustIsWs (c : Char) : Bool :=
  let n := c.toNat
  n = 0x09 || n = 0x0A || n = 0x0B || n = 0x0C || n = 0x0D || n = 0x20 ||
  n = 0x85 || n = 0xA0 || n = 0x1680 || (0x2000 ≤ n && n ≤ 0x200A) ||
  n = 0x2028 || n = 0x2029 || n = 0x202F || n = 0x205F || n = 0x3000

/-- Model of Rust `str::trim`. -/
def rustTrim (s : String) : String :=
  String.mk (((s.data.dropWhile rustIsWs).reverse.dropWhile rustIsWs).reverse)

/-! ## UTF-8 (`String::from_utf8_lossy`) -/

/-- Is `b` a UTF-8 continuation byte? -/
def utf8IsCont (b : Nat) : Bool := 0x80 ≤ b && b ≤ 0xBF

/-- The replacement character U+FFFD inserted by `from_utf8_lossy`. -/
def replChar : Char := Char.ofNat 0xFFFD

/-- Fuel-indexed lossy UTF-8 decoder; each step consumes at least one input
byte, so `fuel = length` suffices.  Invalid sequences are replaced by one
U+FFFD per maximal subpart, as `String::from_utf8_lossy` does. -/
def utf8LossyAux : Nat → List Nat → List Char
  | 0, _ => []
  | _ + 1, [] => []
  | fuel + 1, b :: rest =>
    if b < 0x80 then Char.ofNat b :: utf8LossyAux fuel rest
    else if 0xC2 ≤ b && b ≤ 0xDF then
      match rest with
      | c1 :: rest1 =>
        if utf8IsCont c1 then
          Char.ofNat ((b - 0xC0) * 0x40 + (c1 - 0x80)) :: utf8LossyAux fuel rest1
        else replChar :: utf8LossyAux fuel rest
      | [] => [replChar]
    else if 0xE0 ≤ b && b ≤ 0xEF then
      match rest with
      | c1 :: rest1 =>
        let lo := if b = 0xE0 then 0xA0 else 0x80
        let hi := if b = 0xED then 0x9F else 0xBF
        if lo ≤ c1 && c1 ≤ hi then
          match rest1 with
          | c2 :: rest2 =>
            if utf8IsCont c2 then
              Char.ofNat ((b - 0xE0) * 0x1000 + (c1 - 0x80) * 0x40 + (c2 - 0x80)) ::
                utf8LossyAux fuel rest2
            else replChar :: utf8LossyAux fuel rest1
          | [] => [replChar]
        else replChar :: utf8LossyAux fuel rest
      | [] => [replChar]
    else if 0xF0 ≤ b && b ≤ 0xF4 then
      match rest with
      | c1 :: rest1 =>
        let lo := if b = 0xF0 then 0x90 else 0x80
        let hi := if b = 0xF4 then 0x8F else 0xBF
        if lo ≤ c1 && c1 ≤ hi then
          match rest1 with
          | c2 :: rest2 =>
            if utf8IsCont c2 then
              match rest2 with
              | c3 :: rest3 =>
                if utf8IsCont c3 then
                  Char.ofNat ((b - 0xF0) * 0x40000 + (c1 - 0x80) * 0x1000 +
                      (c2 - 0x80) * 0x40 + (c3 - 0x80)) :: utf8LossyAux fuel rest3
                else replChar :: utf8LossyAux fuel rest2
              | [] => [replChar]
            else replChar :: utf8LossyAux fuel rest1
          | [] => [replChar]
        else replChar :: utf8LossyAux fuel rest
      | [] => [replChar]
    else replChar :: utf8LossyAux fuel rest

/-- Model of `String::from_utf8_lossy` on a byte slice. -/
def utf8Lossy (bs : List Nat) : List Char :=
  utf8LossyAux bs.length bs

/-- UTF-8 encoder, used to build concrete byte-stream inputs from string
literals in the theorems below. -/
def utf8EncodeChar (c : Char) : List Nat :=
  let n := c.toNat
  if n < 0x80 then [n]
  else if n < 0x800 then [0xC0 + n / 0x40, 0x80 + n % 0x40]
  else if n < 0x10000 then
    [0xE0 + n / 0x1000, 0x80 + (n / 0x40) % 0x40, 0x80 + n % 0x40]
  else
    [0xF0 + n / 0x40000, 0x80 + (n / 0x1000) % 0x40, 0x80 + (n / 0x40) % 0x40,
     0x80 + n % 0x40]

/-- UTF-8 encode a whole string. -/
def strBytes (s : String) : List Nat :=
  (s.data.map utf8EncodeChar).flatten

/-! ## The line buffer

All four stream tasks contain the same loop: append the chunk to `buffer`,
repeatedly take `buffer[start..line_end]` for each position of byte `b'\n'`,
and finally `buffer.drain(0..start)`.  `splitLines` returns exactly those
complete lines together with the retained remainder. -/

/-- Split a byte buffer at every `\n` (byte 10): complete lines, and the
trailing remainder that the task keeps for the next chunk. -/
def splitLines : List Nat → List (List Nat) × List Nat
  | [] => ([], [])
  | b :: rest =>
    let p := splitLines rest
    if b = 10 then ([] :: p.1, p.2)
    else
      match p.1 with
      | [] => ([], b :: p.2)
      | l :: ls => ((b :: l) :: ls, p.2)

/-- The decoding every task applies to a completed line:
`String::from_utf8_lossy(&buffer[start..line_end]).trim().to_string()`. -/
def decodeLine (bs : List Nat) : String :=
  rustTrim (String.mk (utf8Lossy bs))

/-! ## JSON values (`serde_json::Value`)

Integer literals are kept exactly (`intNum`); literals with a fraction or
exponent become `floatNum mant exp10` (value `mant * 10 ^ exp10`), which
mirrors `serde_json`'s number classes: deserializing an unsigned integer
field succeeds only from an integer literal in range. -/

inductive Json where
  | null
  | bool (b : Bool)
  | intNum (n : Int)
  | floatNum (mant : Int) (exp10 : Int)
  | str (s : String)
  | arr (items : List Json)
  | obj (members : List (String × Json))

/-- JSON insignificant whitespace. -/
def jsonWsChar (c : Char) : Bool :=
  c = ' ' || c = '\t' || c = '\n' || c = '\r'

/-- Skip JSON whitespace. -/
def skipJsonWs (cs : List Char) : List Char :=
  cs.dropWhile jsonWsChar

/-- Hex digit value. -/
def hexDigitVal (c : Char) : Option Nat :=
  let n := c.toNat
  if 48 ≤ n && n ≤ 57 then some (n - 48)
  else if 97 ≤ n && n ≤ 102 then some (n - 87)
  else if 65 ≤ n && n ≤ 70 then some (n - 55)
  else none

/-- Decimal digit test. -/
def isDigitCh (c : Char) : Bool := '0' ≤ c && c ≤ '9'

/-- Numeric value of a digit run. -/
def digitsVal (ds : List Char) : Nat :=
  ds.foldl (fun acc d => 10 * acc + (d.toNat - 48)) 0

/-- Fuel-indexed JSON string body (after the opening quote), with the
escape sequences and surrogate-pair handling of `serde_json`; unescaped
control characters and lone surrogates are rejected. -/
def parseJsonStringBody : Nat → List Char → Option (List Char × List Char)
  | 0, _ => none
  | _ + 1, [] => none
  | fuel + 1, c :: rest =>
    if c = '"' then some ([], rest)
    else if c = '\\' then
      match rest with
      | [] => none
      | e :: rest2 =>
        if e = '"' then
          (parseJsonStringBody fuel rest2).map (fun p => ('"' :: p.1, p.2))
        else if e = '\\' then
          (parseJsonStringBody fuel rest2).map (fun p => ('\\' :: p.1, p.2))
        else if e = '/' then
          (parseJsonStringBody fuel rest2).map (fun p => ('/' :: p.1, p.2))
        else if e = 'b' then
          (parseJsonStringBody fuel rest2).map (fun p => (Char.ofNat 8 :: p.1, p.2))
        else if e = 'f' then
          (parseJsonStringBody fuel rest2).map (fun p => (Char.ofNat 12 :: p.1, p.2))
        else if e = 'n' then
          (parseJsonStringBody fuel rest2).map (fun p => ('\n' :: p.1, p.2))
        else if e = 'r' then
          (parseJsonStringBody fuel rest2).map (fun p => ('\r' :: p.1, p.2))
        else if e = 't' then
          (parseJsonStringBody fuel rest2).map (fun p => ('\t' :: p.1, p.2))
        else if e = 'u' then
          match rest2 with
          | h1 :: h2 :: h3 :: h4 :: rest3 =>
            match hexDigitVal h1, hexDigitVal h2, hexDigitVal h3, hexDigitVal h4 with
            | some a, some b, some c3, some d =>
              let n := ((a * 16 + b) * 16 + c3) * 16 + d
              if 0xD800 ≤ n && n ≤ 0xDBFF then
                match rest3 with
                | '\\' :: 'u' :: g1 :: g2 :: g3 :: g4 :: rest4 =>
                  match hexDigitVal g1, hexDigitVal g2, hexDigitVal g3, hexDigitVal g4 with
                  | some a2, some b2, some c2, some d2 =>
                    let m := ((a2 * 16 + b2) * 16 + c2) * 16 + d2
                    if 0xDC00 ≤ m && m ≤ 0xDFFF then
                      (parseJsonStringBody fuel rest4).map (fun p =>
                        (Char.ofNat (0x10000 + (n - 0xD800) * 0x400 + (m - 0xDC00)) :: p.1,
                          p.2))
                    else none
                  | _, _, _, _ => none
                | _ => none
              else if 0xDC00 ≤ n && n ≤ 0xDFFF then none
              else (parseJsonStringBody fuel rest3).map (fun p => (Char.ofNat n :: p.1, p.2))
            | _, _, _, _ => none
          | _ => none
        else none
    else if c.toNat < 0x20 then none
    else (parseJsonStringBody fuel rest).map (fun p => (c :: p.1, p.2))

/-- JSON number per the `serde_json` grammar:
`-?(0|[1-9][0-9]*)(\.[0-9]+)?([eE][+-]?[0-9]+)?`. -/
def parseJsonNumber (cs : List Char) : Option (Json × List Char) :=
  let neg : Bool := cs.head? == some '-'
  let cs1 : List Char := if neg then cs.tail else cs
  let ipart : Option (List Char × List Char) := match cs1 with
    | '0' :: r => some (['0'], r)
    | c :: _ =>
      if isDigitCh c && c ≠ '0' then some (cs1.takeWhile isDigitCh, cs1.dropWhile isDigitCh)
      else none
    | [] => none
  match ipart with
  | none => none
  | some (ids, cs2) =>
    let (fds, isFloat1, cs3) : List Char × Bool × List Char := match cs2 with
      | '.' :: r =>
        let ds := r.takeWhile isDigitCh
        (ds, true, r.dropWhile isDigitCh)
      | _ => ([], false, cs2)
    if isFloat1 && fds.isEmpty then none
    else
      let (eds, eneg, isFloat2, cs4) : List Char × Bool × Bool × List Char := match cs3 with
        | 'e' :: '-' :: r => (r.takeWhile isDigitCh, true, true, r.dropWhile isDigitCh)
        | 'e' :: '+' :: r => (r.takeWhile isDigitCh, false, true, r.dropWhile isDigitCh)
        | 'e' :: r => (r.takeWhile isDigitCh, false, true, r.dropWhile isDigitCh)
        | 'E' :: '-' :: r => (r.takeWhile isDigitCh, true, true, r.dropWhile isDigitCh)
        | 'E' :: '+' :: r => (r.takeWhile isDigitCh, false, true, r.dropWhile isDigitCh)
        | 'E' :: r => (r.takeWhile isDigitCh, false, true, r.dropWhile isDigitCh)
        | _ => ([], false, false, cs3)
      if isFloat2 && eds.isEmpty then none
      else
        let sign : Int := if neg then -1 else 1
        if isFloat1 || isFloat2 then
          let mant : Int := sign * Int.ofNat (digitsVal (ids ++ fds))
          let e : Int := (if eneg then -(Int.ofNat (digitsVal eds)) else Int.ofNat (digitsVal eds)) -
            Int.ofNat fds.length
          some (Json.floatNum mant e, cs4)
        else some (Json.intNum (sign * Int.ofNat (digitsVal ids)), cs4)

/-- Opening and closing brace characters. -/
def braceL : Char := Char.ofNat 123

/-- Closing brace character. -/
def braceR : Char := Char.ofNat 125

mutual

/-- Fuel-indexed JSON value (nesting consumes a byte per level, so fuel
of the input length is enough). -/
def parseJsonValue : Nat → List Char → Option (Json × List Char)
  | 0, _ => none
  | fuel + 1, cs =>
    match skipJsonWs cs with
    | [] => none
    | c :: rest =>
      if c = '"' then
        (parseJsonStringBody (rest.length + 1) rest).map
          (fun p => (Json.str (String.mk p.1), p.2))
      else if c = '[' then
        match skipJsonWs rest with
        | ']' :: r => some (Json.arr [], r)
        | cs1 => (parseJsonItems fuel cs1).map (fun p => (Json.arr p.1, p.2))
      else if c = braceL then
        match skipJsonWs rest with
        | r0 =>
          match r0 with
          | c2 :: r =>
            if c2 = braceR then some (Json.obj [], r)
            else (parseJsonMembers fuel r0).map (fun p => (Json.obj p.1, p.2))
          | [] => none
      else if "true".data.isPrefixOf (c :: rest) then
        some (Json.bool true, (c :: rest).drop 4)
      else if "false".data.isPrefixOf (c :: rest) then
        some (Json.bool false, (c :: rest).drop 5)
      else if "null".data.isPrefixOf (c :: rest) then
        some (Json.null, (c :: rest).drop 4)
      else parseJsonNumber (c :: rest)

/-- One or more comma-separated array items, then the closing bracket. -/
def parseJsonItems : Nat → List Char → Option (List Json × List Char)
  | 0, _ => none
  | fuel + 1, cs =>
    match parseJsonValue fuel cs with
    | none => none
    | some (v, r1) =>
      match skipJsonWs r1 with
      | ',' :: r2 => (parseJsonItems fuel r2).map (fun p => (v :: p.1, p.2))
      | ']' :: r2 => some ([v], r2)
      | _ => none

/-- One or more comma-separated object members, then the closing brace. -/
def parseJsonMembers : Nat → List Char → Option (List (String × Json) × List Char)
  | 0, _ => none
  | fuel + 1, cs =>
    match skipJsonWs cs with
    | '"' :: r0 =>
      match parseJsonStringBody (r0.length + 1) r0 with
      | none => none
      | some (key, r1) =>
        match skipJsonWs r1 with
        | ':' :: r2 =>
          match parseJsonValue fuel r2 with
          | none => none
          | some (v, r3) =>
            match skipJsonWs r3 with
            | ',' :: r4 => (parseJsonMembers fuel r4).map
                (fun p => ((String.mk key, v) :: p.1, p.2))
            | c5 :: r5 =>
              if c5 = braceR then some ([(String.mk key, v)], r5) else none
            | [] => none
        | _ => none
    | _ => none

end

/-- Model of `serde_json::from_str` up to the JSON-value level: the whole
input must be one JSON value surrounded only by whitespace. -/
def parseJsonText (s : String) : Option Json :=
  match parseJsonValue (s.data.length + 1) s.data with
  | none => none
  | some (j, rest) => if (skipJsonWs rest).isEmpty then some j else none

/-! ## Derived `serde::Deserialize` semantics

The stream chunk structs all use plain `#[derive(Deserialize)]`: required
fields must be present exactly once with the right type, `Option` fields
default to `None` when absent or `null`, duplicated known fields are an
error, and unknown fields are ignored. -/

/-- First value bound to key `k` (serde reads fields in order). -/
def getField (kvs : List (String × Json)) (k : String) : Option Json :=
  match kvs.find? (fun kv => kv.1 = k) with
  | some kv => some kv.2
  | none => none

/-- Number of occurrences of key `k`; more than one is a
serde "duplicate field" error. -/
def keyCount (kvs : List (String × Json)) (k : String) : Nat :=
  (kvs.filter (fun kv => kv.1 = k)).length

/-- Deserialize a `String`. -/
def decStr : Json → Option String
  | Json.str s => some s
  | _ => none

/-- Deserialize a `bool`. -/
def decBool : Json → Option Bool
  | Json.bool b => some b
  | _ => none

/-- Deserialize an unsigned integer with exclusive upper `bound`
(`2 ^ 32` for `u32`, `2 ^ 64` for `u64`): only an in-range integer
literal succeeds, as in `serde_json`. -/
def decUInt (bound : Int) : Json → Option Nat
  | Json.intNum n => if 0 ≤ n && n < bound then some n.toNat else none
  | _ => none

/-- Deserialize a `Vec<T>`. -/
def decList (dec : Json → Option α) : Json → Option (List α)
  | Json.arr xs => xs.mapM dec
  | _ => none

/-- Is this JSON value `null`? -/
def jsonIsNull : Json → Bool
  | Json.null => true
  | _ => false

/-- A required struct field. -/
def reqField (dec : Json → Option α) (kvs : List (String × Json)) (k : String) :
    Option α :=
  if keyCount kvs k ≤ 1 then (getField kvs k).bind dec else none

/-- An `Option<T>` struct field: absent or `null` is `None`. -/
def optField (dec : Json → Option α) (kvs : List (String × Json)) (k : String) :
    Option (Option α) :=
  if keyCount kvs k ≤ 1 then
    match getField kvs k with
    | none => some none
    | some v => if jsonIsNull v then some none else (dec v).map some
  else none

/-! ## Channel items and the shared stream-task loop

All four `chat_stream` bodies share, by copy-paste, the identical loop
over `bytes_stream`; they differ only in the per-line block.  `runTask`
is that loop with the per-line block passed as `h`; each provider's task
below instantiates it with its own line handler and network error. -/

/-- One item placed on the tokio mpsc channel:
`Ok(content)` or a terminal `Err(e)`.  The end of the output list models
the channel being closed (`drop(tx_clone)` or task exit). -/
inductive OutItem (ε : Type) where
  | content (text : String)
  | error (e : ε)
deriving DecidableEq

/-- Outcome of one provider-specific per-line block: emit `events` and
continue; emit and close the channel (the `drop(tx_clone); return` paths);
or emit, send a terminal error, and return. -/
inductive LineStep (ε : Type) where
  | next (events : List String)
  | stop (events : List String)
  | fail (events : List String) (e : ε)
deriving DecidableEq

/-- One result of `byte_stream.next()`: a byte chunk, or a transport-level
read failure (`Err(e)` from reqwest). -/
inductive Chunk where
  | bytes (bs : List Nat)
  | failed
deriving DecidableEq

/-- Run the per-line block over the complete lines of one chunk; the `Bool`
is the task-returned flag (after it is set no line is looked at). -/
def runLines (h : String → LineStep ε) :
    List String → List (OutItem ε) × Bool → List (OutItem ε) × Bool
  | [], acc => acc
  | _ :: _, (o, true) => (o, true)
  | l :: ls, (o, false) =>
    match h l with
    | LineStep.next es => runLines h ls (o ++ es.map OutItem.content, false)
    | LineStep.stop es => (o ++ es.map OutItem.content, true)
    | LineStep.fail es e => (o ++ es.map OutItem.content ++ [OutItem.error e], true)

/-- Task-local state: items already placed on the channel, unconsumed
trailing bytes, and whether the task has returned. -/
structure TaskState (ε : Type) where
  out : List (OutItem ε)
  buffer : List Nat
  halted : Bool
deriving DecidableEq

/-- Handle one `byte_stream.next()` result: append to the buffer, process
every complete line, keep the remainder; a read failure sends the
provider's network error and returns.  After the task has returned its
state is final. -/
def stepChunk (h : String → LineStep ε) (netE : ε) :
    TaskState ε → Chunk → TaskState ε
  | ⟨o, buf, false⟩, Chunk.bytes bs =>
    let p := splitLines (buf ++ bs)
    let r := runLines h (p.1.map decodeLine) (o, false)
    { out := r.1, buffer := if r.2 then [] else p.2, halted := r.2 }
  | ⟨o, _, false⟩, Chunk.failed =>
    { out := o ++ [OutItem.error netE], buffer := [], halted := true }
  | st, _ => st

/-- The whole spawned stream task: items placed on the channel for a given
sequence of transport results; when the byte stream is exhausted the
channel is simply closed (nothing more is appended). -/
def runTask (h : String → LineStep ε) (netE : ε) (chunks : List Chunk) :
    List (OutItem ε) :=
  (chunks.foldl (stepChunk h netE) ⟨[], [], false⟩).out

/-! ## `llm-openai`: SSE-plain (`crates/llm-openai/src/provider.rs`,
`OpenAIProvider::chat_stream`, and `types.rs` / `error.rs`) -/

/-- `OpenAIError` (`crates/llm-openai/src/error.rs`).  The `reqwest`,
`serde_json` and config error payloads carried by `Network`, `Json` and
`Config` are opaque to the stream task and are modelled payload-free. -/
inductive OpenAIError where
  | authentication (message : String)
  | rateLimit (retry_after : Option Nat)
  | invalidRequest (message : String)
  | serviceUnavailable (message : String)
  | contentFiltered (message : String)
  | modelNotFound (model : String)
  | insufficientQuota (message : String)
  | network
  | json
  | config
  | other (message : String)
deriving DecidableEq

/-- `OpenAIStreamFunction` (`types.rs`). -/
structure OpenAIStreamFunction where
  name : Option String
  arguments : Option String
deriving DecidableEq

/-- `OpenAIStreamToolCall` (`types.rs`); `call_type` is serialized
as `type`. -/
structure OpenAIStreamToolCall where
  index : Nat
  id : Option String
  call_type : Option String
  function : Option OpenAIStreamFunction
deriving DecidableEq

/-- `OpenAIStreamDelta` (`types.rs`). -/
structure OpenAIStreamDelta where
  role : Option String
  content : Option String
  tool_calls : Option (List OpenAIStreamToolCall)
deriving DecidableEq

/-- `OpenAIStreamChoice` (`types.rs`). -/
structure OpenAIStreamChoice where
  index : Nat
  delta : OpenAIStreamDelta
  finish_reason : Option String
deriving DecidableEq

/-- `OpenAIStreamChunk` (`types.rs`). -/
structure OpenAIStreamChunk where
  id : String
  object : String
  created : Nat
  model : String
  choices : List OpenAIStreamChoice
deriving DecidableEq

/-- Derived `Deserialize` for `OpenAIStreamFunction`. -/
def fromJsonOpenAIStreamFunction : Json → Option OpenAIStreamFunction
  | Json.obj kvs => do
    let name ← optField decStr kvs "name"
    let arguments ← optField decStr kvs "arguments"
    pure ⟨name, arguments⟩
  | _ => none

/-- Derived `Deserialize` for `OpenAIStreamToolCall`. -/
def fromJsonOpenAIStreamToolCall : Json → Option OpenAIStreamToolCall
  | Json.obj kvs => do
    let index ← reqField (decUInt 4294967296) kvs "index"
    let id ← optField decStr kvs "id"
    let call_type ← optField decStr kvs "type"
    let function ← optField fromJsonOpenAIStreamFunction kvs "function"
    pure ⟨index, id, call_type, function⟩
  | _ => none

/-- Derived `Deserialize` for `OpenAIStreamDelta`. -/
def fromJsonOpenAIStreamDelta : Json → Option OpenAIStreamDelta
  | Json.obj kvs => do
    let role ← optField decStr kvs "role"
    let content ← optField decStr kvs "content"
    let tool_calls ← optField (decList fromJsonOpenAIStreamToolCall) kvs "tool_calls"
    pure ⟨role, content, tool_calls⟩
  | _ => none

/-- Derived `Deserialize` for `OpenAIStreamChoice`. -/
def fromJsonOpenAIStreamChoice : Json → Option OpenAIStreamChoice
  | Json.obj kvs => do
    let index ← reqField (decUInt 4294967296) kvs "index"
    let delta ← reqField fromJsonOpenAIStreamDelta kvs "delta"
    let finish_reason ← optField decStr kvs "finish_reason"
    pure ⟨index, delta, finish_reason⟩
  | _ => none

/-- Derived `Deserialize` for `OpenAIStreamChunk`. -/
def fromJsonOpenAIStreamChunk : Json → Option OpenAIStreamChunk
  | Json.obj kvs => do
    let id ← reqField decStr kvs "id"
    let object ← reqField decStr kvs "object"
    let created ← reqField (decUInt 18446744073709551616) kvs "created"
    let model ← reqField decStr kvs "model"
    let choices ← reqField (decList fromJsonOpenAIStreamChoice) kvs "choices"
    pure ⟨id, object, created, model, choices⟩
  | _ => none

/-- `serde_json::from_str::<OpenAIStreamChunk>`. -/
def openaiFromStr (s : String) : Option OpenAIStreamChunk :=
  (parseJsonText s).bind fromJsonOpenAIStreamChunk

/-- The per-line block of `OpenAIProvider::chat_stream`
(`provider.rs` lines 299-325): only `data: ` lines matter, the literal
payload `[DONE]` closes the channel, a parsed chunk emits the first
choice's non-empty delta content, and everything else falls through. -/
def openaiLine (line : String) : LineStep OpenAIError :=
  if strStartsWith line "data: " then
    let data := strDrop line 6
    if data = "[DONE]" then LineStep.stop []
    else
      match openaiFromStr data with
      | some chunk =>
        match chunk.choices.head? with
        | some choice =>
          match choice.delta.content with
          | some c => if c ≠ "" then LineStep.next [c] else LineStep.next []
          | none => LineStep.next []
        | none => LineStep.next []
      | none => LineStep.next []
  else LineStep.next []

/-- The spawned stream task of `OpenAIProvider::chat_stream`. -/
def openaiTask (chunks : List Chunk) : List (OutItem OpenAIError) :=
  runTask openaiLine OpenAIError.network chunks

/-! ## `llm-anthropic`: SSE-typed (`crates/llm-anthropic/src/provider.rs`,
`AnthropicProvider::chat_stream`, with `types.rs` / `error.rs`) -/

/-- `AnthropicError` (`crates/llm-anthropic/src/error.rs`); opaque source
payloads modelled payload-free as for `OpenAIError`. -/
inductive AnthropicError where
  | authentication (message : String)
  | rateLimit (retry_after : Option Nat)
  | invalidRequest (message : String)
  | serviceUnavailable (message : String)
  | contentFiltered (message : String)
  | modelNotFound (model : String)
  | insufficientQuota (message : String)
  | requestTooLarge (message : String)
  | network
  | json
  | config
  | other (message : String)
deriving DecidableEq

/-- `AnthropicErrorDetail` (`error.rs`); `error_type` is serialized
as `type`. -/
structure AnthropicErrorDetail where
  error_type : String
  message : String
deriving DecidableEq

/-- `AnthropicUsage` (`types.rs`). -/
structure AnthropicUsage where
  input_tokens : Nat
  output_tokens : Nat
deriving DecidableEq

/-- `AnthropicMessageDelta` (`types.rs`). -/
structure AnthropicMessageDelta where
  stop_reason : Option String
  stop_sequence : Option String
deriving DecidableEq

/-- `AnthropicImageSource` (`types.rs`). -/
structure AnthropicImageSource where
  source_type : String
  media_type : String
  data : String
deriving DecidableEq

/-- `AnthropicContentBlock` (`types.rs`), internally tagged by `type`. -/
inductive AnthropicContentBlock where
  | text (text : String)
  | image (source : AnthropicImageSource)
  | toolUse (id : String) (name : String) (input : Json)
  | toolResult (tool_use_id : String) (content : String) (is_error : Option Bool)

/-- `AnthropicStreamMessage` (`types.rs`); `message_type` is serialized
as `type`, `content` is a `Vec<serde_json::Value>`. -/
structure AnthropicStreamMessage where
  id : String
  message_type : String
  role : String
  content : List Json
  model : String
  stop_reason : Option String
  stop_sequence : Option String
  usage : AnthropicUsage

/-- `AnthropicContentDelta` (`types.rs`), internally tagged by `type`. -/
inductive AnthropicContentDelta where
  | textDelta (text : String)
  | inputJsonDelta (partialJson : String)
deriving DecidableEq

/-- `AnthropicStreamChunk` (`types.rs`), internally tagged by `type`. -/
inductive AnthropicStreamChunk where
  | messageStart (message : AnthropicStreamMessage)
  | contentBlockStart (index : Nat) (content_block : AnthropicContentBlock)
  | contentBlockDelta (index : Nat) (delta : AnthropicContentDelta)
  | contentBlockStop (index : Nat)
  | messageDelta (delta : AnthropicMessageDelta) (usage : AnthropicUsage)
  | messageStop
  | ping
  | error (error : AnthropicErrorDetail)

/-- Derived `Deserialize` for `AnthropicErrorDetail`. -/
def fromJsonAnthropicErrorDetail : Json → Option AnthropicErrorDetail
  | Json.obj kvs => do
    let t ← reqField decStr kvs "type"
    let message ← reqField decStr kvs "message"
    pure ⟨t, message⟩
  | _ => none

/-- Derived `Deserialize` for `AnthropicUsage`. -/
def fromJsonAnthropicUsage : Json → Option AnthropicUsage
  | Json.obj kvs => do
    let i ← reqField (decUInt 4294967296) kvs "input_tokens"
    let o ← reqField (decUInt 4294967296) kvs "output_tokens"
    pure ⟨i, o⟩
  | _ => none

/-- Derived `Deserialize` for `AnthropicMessageDelta`. -/
def fromJsonAnthropicMessageDelta : Json → Option AnthropicMessageDelta
  | Json.obj kvs => do
    let sr ← optField decStr kvs "stop_reason"
    let ss ← optField decStr kvs "stop_sequence"
    pure ⟨sr, ss⟩
  | _ => none

/-- Derived `Deserialize` for `AnthropicImageSource`. -/
def fromJsonAnthropicImageSource : Json → Option AnthropicImageSource
  | Json.obj kvs => do
    let t ← reqField decStr kvs "type"
    let mt ← reqField decStr kvs "media_type"
    let d ← reqField decStr kvs "data"
    pure ⟨t, mt, d⟩
  | _ => none

/-- Derived internally-tagged `Deserialize` for `AnthropicContentBlock`. -/
def fromJsonAnthropicContentBlock : Json → Option AnthropicContentBlock
  | Json.obj kvs =>
    match getField kvs "type" with
    | some (Json.str tag) =>
      if tag = "text" then
        (reqField decStr kvs "text").map AnthropicContentBlock.text
      else if tag = "image" then
        (reqField fromJsonAnthropicImageSource kvs "source").map AnthropicContentBlock.image
      else if tag = "tool_use" then do
        let id ← reqField decStr kvs "id"
        let name ← reqField decStr kvs "name"
        let input ← reqField some kvs "input"
        pure (AnthropicContentBlock.toolUse id name input)
      else if tag = "tool_result" then do
        let tid ← reqField decStr kvs "tool_use_id"
        let content ← reqField decStr kvs "content"
        let ie ← optField decBool kvs "is_error"
        pure (AnthropicContentBlock.toolResult tid content ie)
      else none
    | _ => none
  | _ => none

/-- Derived `Deserialize` for `AnthropicStreamMessage`. -/
def fromJsonAnthropicStreamMessage : Json → Option AnthropicStreamMessage
  | Json.obj kvs => do
    let id ← reqField decStr kvs "id"
    let mt ← reqField decStr kvs "type"
    let role ← reqField decStr kvs "role"
    let content ← reqField (decList some) kvs "content"
    let model ← reqField decStr kvs "model"
    let sr ← optField decStr kvs "stop_reason"
    let ss ← optField decStr kvs "stop_sequence"
    let usage ← reqField fromJsonAnthropicUsage kvs "usage"
    pure ⟨id, mt, role, content, model, sr, ss, usage⟩
  | _ => none

/-- Derived internally-tagged `Deserialize` for `AnthropicContentDelta`. -/
def fromJsonAnthropicContentDelta : Json → Option AnthropicContentDelta
  | Json.obj kvs =>
    match getField kvs "type" with
    | some (Json.str tag) =>
      if tag = "text_delta" then
        (reqField decStr kvs "text").map AnthropicContentDelta.textDelta
      else if tag = "input_json_delta" then
        (reqField decStr kvs "partial_json").map AnthropicContentDelta.inputJsonDelta
      else none
    | _ => none
  | _ => none

/-- Derived internally-tagged `Deserialize` for `AnthropicStreamChunk`. -/
def fromJsonAnthropicStreamChunk : Json → Option AnthropicStreamChunk
  | Json.obj kvs =>
    match getField kvs "type" with
    | some (Json.str tag) =>
      if tag = "message_start" then
        (reqField fromJsonAnthropicStreamMessage kvs "message").map
          AnthropicStreamChunk.messageStart
      else if tag = "content_block_start" then do
        let index ← reqField (decUInt 4294967296) kvs "index"
        let cb ← reqField fromJsonAnthropicContentBlock kvs "content_block"
        pure (AnthropicStreamChunk.contentBlockStart index cb)
      else if tag = "content_block_delta" then do
        let index ← reqField (decUInt 4294967296) kvs "index"
        let delta ← reqField fromJsonAnthropicContentDelta kvs "delta"
        pure (AnthropicStreamChunk.contentBlockDelta index delta)
      else if tag = "content_block_stop" then do
        let index ← reqField (decUInt 4294967296) kvs "index"
        pure (AnthropicStreamChunk.contentBlockStop index)
      else if tag = "message_delta" then do
        let delta ← reqField fromJsonAnthropicMessageDelta kvs "delta"
        let usage ← reqField fromJsonAnthropicUsage kvs "usage"
        pure (AnthropicStreamChunk.messageDelta delta usage)
      else if tag = "message_stop" then some AnthropicStreamChunk.messageStop
      else if tag = "ping" then some AnthropicStreamChunk.ping
      else if tag = "error" then
        (reqField fromJsonAnthropicErrorDetail kvs "error").map AnthropicStreamChunk.error
      else none
    | _ => none
  | _ => none

/-- `serde_json::from_str::<AnthropicStreamChunk>`. -/
def anthropicFromStr (s : String) : Option AnthropicStreamChunk :=
  (parseJsonText s).bind fromJsonAnthropicStreamChunk

/-- The per-line block of `AnthropicProvider::chat_stream`
(`provider.rs` lines 214-257): `data: ` payloads are decoded — a
non-empty text delta is sent, `message_stop` closes the channel, an
error event sends `AnthropicError::Other` and returns, all other chunk
types fall through; a line starting with `event: message_stop` also
closes the channel. -/
def anthropicLine (line : String) : LineStep AnthropicError :=
  match stripLeading line "data: " with
  | some data =>
    match anthropicFromStr data with
    | some (AnthropicStreamChunk.contentBlockDelta _ delta) =>
      match delta with
      | AnthropicContentDelta.textDelta text =>
        if text ≠ "" then LineStep.next [text] else LineStep.next []
      | AnthropicContentDelta.inputJsonDelta _ => LineStep.next []
    | some AnthropicStreamChunk.messageStop => LineStep.stop []
    | some (AnthropicStreamChunk.error d) => LineStep.fail [] (AnthropicError.other d.message)
    | some _ => LineStep.next []
    | none => LineStep.next []
  | none =>
    if strStartsWith line "event: message_stop" then LineStep.stop []
    else LineStep.next []

/-- The spawned stream task of `AnthropicProvider::chat_stream`. -/
def anthropicTask (chunks : List Chunk) : List (OutItem AnthropicError) :=
  runTask anthropicLine AnthropicError.network chunks

/-! ## `llm-ollama`: NDJSON (`crates/llm-ollama/src/provider.rs`,
`OllamaProvider::chat_stream`, with `types.rs`) -/

/-- `OllamaError`, as declared in `crates/ferrous-llm-ollama/src/error.rs`
(the `error.rs` of the `llm-ollama` crate itself is not in the corpus; its
stream task constructs the same `Network` variant, and the sibling crate
declares the enum shown here).  Opaque source payloads are modelled
payload-free. -/
inductive OllamaError where
  | modelNotFound (model : String)
  | modelNotLoaded (model : String)
  | invalidRequest (message : String)
  | serviceUnavailable (message : String)
  | resourceExhausted (message : String)
  | network
  | json
  | config
  | other (message : String)
deriving DecidableEq

/-- `OllamaMessage` (`crates/llm-ollama/src/types.rs`). -/
structure OllamaMessage where
  role : String
  content : String
  images : Option (List String)
deriving DecidableEq

/-- `OllamaStreamChunk` (`crates/llm-ollama/src/types.rs`). -/
structure OllamaStreamChunk where
  model : String
  created_at : String
  message : Option OllamaMessage
  response : Option String
  done : Bool
  total_duration : Option Nat
  load_duration : Option Nat
  prompt_eval_count : Option Nat
  prompt_eval_duration : Option Nat
  eval_count : Option Nat
  eval_duration : Option Nat
deriving DecidableEq

/-- Derived `Deserialize` for `OllamaMessage`. -/
def fromJsonOllamaMessage : Json → Option OllamaMessage
  | Json.obj kvs => do
    let role ← reqField decStr kvs "role"
    let content ← reqField decStr kvs "content"
    let images ← optField (decList decStr) kvs "images"
    pure ⟨role, content, images⟩
  | _ => none

/-- Derived `Deserialize` for `OllamaStreamChunk`. -/
def fromJsonOllamaStreamChunk : Json → Option OllamaStreamChunk
  | Json.obj kvs => do
    let model ← reqField decStr kvs "model"
    let created_at ← reqField decStr kvs "created_at"
    let message ← optField fromJsonOllamaMessage kvs "message"
    let response ← optField decStr kvs "response"
    let done ← reqField decBool kvs "done"
    let td ← optField (decUInt 18446744073709551616) kvs "total_duration"
    let ld ← optField (decUInt 18446744073709551616) kvs "load_duration"
    let pec ← optField (decUInt 4294967296) kvs "prompt_eval_count"
    let ped ← optField (decUInt 18446744073709551616) kvs "prompt_eval_duration"
    let ec ← optField (decUInt 4294967296) kvs "eval_count"
    let ed ← optField (decUInt 18446744073709551616) kvs "eval_duration"
    pure ⟨model, created_at, message, response, done, td, ld, pec, ped, ec, ed⟩
  | _ => none

/-- `serde_json::from_str::<OllamaStreamChunk>`. -/
def ollamaFromStr (s : String) : Option OllamaStreamChunk :=
  (parseJsonText s).bind fromJsonOllamaStreamChunk

/-- The content extracted from one parsed chunk
(`provider.rs` lines 358-363): `message.content` when a message is
present, else `response` defaulting to empty. -/
def ollamaChunkContent (chunk : OllamaStreamChunk) : String :=
  match chunk.message with
  | some m => m.content
  | none => chunk.response.getD ""

/-- The per-line block of `llm-ollama`'s `OllamaProvider::chat_stream`
(`provider.rs` lines 352-377): every non-empty line is parsed as one JSON
chunk; non-empty content is sent; a chunk with `done == true` then closes
the channel. -/
def ollamaLine (line : String) : LineStep OllamaError :=
  if line ≠ "" then
    match ollamaFromStr line with
    | some chunk =>
      let es := if ollamaChunkContent chunk ≠ "" then [ollamaChunkContent chunk] else []
      if chunk.done then LineStep.stop es else LineStep.next es
    | none => LineStep.next []
  else LineStep.next []

/-- The spawned stream task of `llm-ollama`'s `OllamaProvider::chat_stream`. -/
def llmOllamaTask (chunks : List Chunk) : List (OutItem OllamaError) :=
  runTask ollamaLine OllamaError.network chunks

/-! ## `ferrous-llm-ollama` (`crates/ferrous-llm-ollama/src/provider.rs`)

The spawned stream-task body of this crate's `chat_stream` is translated
independently below; its `types.rs` is not in the corpus, so its chunk
structs are modelled from the spec. -/

namespace FerrousOllama

/-- Modelled from the spec: `ferrous-llm-ollama`'s `types.rs` (declaring
its `OllamaMessage`) is missing from the corpus.  The spec's NDJSON delta
event carries the incremental text fragment as `content` inside the
`message` object — Scenario B's payloads are `{"content":"Hi"}` and
`{"content":""}` — and `provider.rs` reads only `message.content`, so
`content` is the one (required) field; any further field of the real
struct would be ignorable for the stream task. -/
structure OllamaMessage where
  content : String
deriving DecidableEq

/-- Modelled from the spec: `ferrous-llm-ollama`'s `types.rs` (declaring
its `OllamaStreamChunk`) is missing from the corpus.  Per the spec's
NDJSON framing, each line is one JSON object with a required boolean
`done` terminal field, and the fields `provider.rs` reads are the
optional `message`, the optional `response` fallback, and `done`;
Scenario B fixes that a frame carrying only `message` and `done` must
decode.  Usage/statistics fields the spec mentions are not read by the
stream task and unknown fields are ignored by serde, so they are not
modelled. -/
structure OllamaStreamChunk where
  message : Option OllamaMessage
  response : Option String
  done : Bool
deriving DecidableEq

/-- Modelled from the spec: derived `Deserialize` for the missing
`OllamaMessage` of `ferrous-llm-ollama`. -/
def fromJsonOllamaMessage : Json → Option OllamaMessage
  | Json.obj kvs => do
    let content ← reqField decStr kvs "content"
    pure ⟨content⟩
  | _ => none

/-- Modelled from the spec: derived `Deserialize` for the missing
`OllamaStreamChunk` of `ferrous-llm-ollama`. -/
def fromJsonOllamaStreamChunk : Json → Option OllamaStreamChunk
  | Json.obj kvs => do
    let message ← optField fromJsonOllamaMessage kvs "message"
    let response ← optField decStr kvs "response"
    let done ← reqField decBool kvs "done"
    pure ⟨message, response, done⟩
  | _ => none

/-- `serde_json::from_str` for the `ferrous-llm-ollama` chunk type. -/
def ollamaFromStr (s : String) : Option OllamaStreamChunk :=
  (parseJsonText s).bind fromJsonOllamaStreamChunk

/-- The content extracted from one parsed chunk by `ferrous-llm-ollama`'s
`provider.rs` (lines 349-354): `message.content` when a message is
present, else `response` defaulting to empty. -/
def ollamaChunkContent (chunk : OllamaStreamChunk) : String :=
  match chunk.message with
  | some m => m.content
  | none => chunk.response.getD ""

/-- The per-line block of `ferrous-llm-ollama`'s
`OllamaProvider::chat_stream` (`provider.rs` lines 344-369), translated
from that file: non-empty lines are parsed, non-empty content is sent,
and `done == true` closes the channel. -/
def ollamaLine (line : String) : LineStep OllamaError :=
  if line ≠ "" then
    match ollamaFromStr line with
    | some chunk =>
      let es := if ollamaChunkContent chunk ≠ "" then [ollamaChunkContent chunk] else []
      if chunk.done then LineStep.stop es else LineStep.next es
    | none => LineStep.next []
  else LineStep.next []

end FerrousOllama

/-- The spawned stream task of `ferrous-llm-ollama`'s
`OllamaProvider::chat_stream` (its loop is the same transport loop, with
its own per-line block and `OllamaError::Network` on read failure). -/
def ferrousOllamaTask (chunks : List Chunk) : List (OutItem OllamaError) :=
  runTask FerrousOllama.ollamaLine OllamaError.network chunks

/-- Do a spec-modelled `ferrous-llm-ollama` chunk and an `llm-ollama`
chunk drive the per-line block identically?  The block reads only the
extracted content and the `done` flag. -/
def chunkAgrees (cf : FerrousOllama.OllamaStreamChunk) (c : OllamaStreamChunk) : Bool :=
  (FerrousOllama.ollamaChunkContent cf == ollamaChunkContent c) && (cf.done == c.done)

/-- Do the two crates' JSON decoders agree on a line: both reject it, or
both accept it with the same content and `done` flag? -/
def decodeAgrees (line : String) : Bool :=
  match FerrousOllama.ollamaFromStr line, ollamaFromStr line with
  | none, none => true
  | some cf, some c => chunkAgrees cf c
  | _, _ => false

/-- The bytes a transport result contributes to the line buffer. -/
def chunkBytes : Chunk → List Nat
  | Chunk.bytes bs => bs
  | Chunk.failed => []

/-- Every complete line the run over `cs` can ever slice out of the
buffer (the lines actually processed are a prefix of these: processing
may stop early at a terminal step or a transport failure). -/
def runLinesOf (cs : List Chunk) : List (List Nat) :=
  (splitLines ((cs.map chunkBytes).flatten)).1

/-! ## Predicates used by the properties -/

/-- The folded task state after a sequence of transport results. -/
def streamState (h : String → LineStep ε) (netE : ε) (chunks : List Chunk) :
    TaskState ε :=
  chunks.foldl (stepChunk h netE) ⟨[], [], false⟩

/-- Is this channel item an `Ok` content item? -/
def isContentItem : OutItem ε → Bool
  | OutItem.content _ => true
  | OutItem.error _ => false

/-- No error item at all. -/
def errorFree (l : List (OutItem ε)) : Bool :=
  l.all isContentItem

/-- Every item except possibly the last is content: an error item can
only be the final item ever placed on the channel. -/
def wellTerminated : List (OutItem ε) → Bool
  | [] => true
  | [_] => true
  | x :: y :: rest => isContentItem x && wellTerminated (y :: rest)

/-- A byte sequence with no line delimiter. -/
def noNL (bs : List Nat) : Prop :=
  ∀ b ∈ bs, b ≠ 10

instance noNLDecidable (bs : List Nat) : Decidable (noNL bs) :=
  List.decidableBAll _ bs

/-! ## Line-buffer lemmas -/

/-- A delimiter-free buffer yields no line. -/
theorem splitLines_noNL (bs : List Nat) (h : noNL bs) : splitLines bs = ([], bs) := by
  induction bs with
  | nil => rfl
  | cons b rest ih =>
    have hb : b ≠ 10 := h b (List.mem_cons_self _ _)
    have hr : noNL rest := fun x hx => h x (List.mem_cons_of_mem _ hx)
    simp [splitLines, ih hr, hb]

/-- The retained remainder never contains the delimiter. -/
theorem splitLines_rem_noNL (bs : List Nat) : noNL (splitLines bs).2 := by
  induction bs with
  | nil => intro x hx; simp [splitLines] at hx
  | cons b rest ih =>
    intro x hx
    by_cases hb : b = 10
    · exact ih x (by simpa [splitLines, hb] using hx)
    · cases hp : (splitLines rest).1 with
      | nil =>
        simp [splitLines, hb, hp] at hx
        rcases hx with hx | hx
        · simpa [hx] using hb
        · exact ih x (by simpa [hp] using hx)
      | cons l ls =>
        exact ih x (by simpa [splitLines, hb, hp] using hx)

/-- Prepending one complete delimiter-free line. -/
theorem splitLines_line (L rest : List Nat) (h : noNL L) :
    splitLines (L ++ 10 :: rest) = (L :: (splitLines rest).1, (splitLines rest).2) := by
  induction L with
  | nil => simp [splitLines]
  | cons x L2 ih =>
    have hx : x ≠ 10 := h x (List.mem_cons_self _ _)
    have hL2 : noNL L2 := fun y hy => h y (List.mem_cons_of_mem _ hy)
    simp [splitLines, ih hL2, hx]

/-- Decomposing a buffer split across an append: the lines of `a` come
first, and `a`'s remainder merges with `b`. -/
theorem splitLines_append (a b : List Nat) :
    splitLines (a ++ b) =
      ((splitLines a).1 ++ (splitLines ((splitLines a).2 ++ b)).1,
        (splitLines ((splitLines a).2 ++ b)).2) := by
  induction a with
  | nil => simp [splitLines]
  | cons x a2 ih =>
    by_cases hx : x = 10
    · subst hx
      simp [splitLines, ih]
    · cases hp : (splitLines a2).1 with
      | nil =>
        have hrem : splitLines a2 = ([], (splitLines a2).2) := by
          rw [← hp]
        simp [splitLines, ih, hp, hx]
      | cons l ls =>
        simp [splitLines, ih, hp, hx]

/-! ## Stream-task loop lemmas -/

/-- After the task has returned, no line is processed. -/
theorem runLines_halted (h : String → LineStep ε) (ls : List String)
    (acc : List (OutItem ε) × Bool) (ha : acc.2 = true) :
    runLines h ls acc = acc := by
  cases ls with
  | nil => rfl
  | cons l ls2 =>
    rcases acc with ⟨o, flag⟩
    cases flag
    · simp at ha
    · rfl

/-- Processing lines in two batches. -/
theorem runLines_append (h : String → LineStep ε) (l1 l2 : List String)
    (acc : List (OutItem ε) × Bool) :
    runLines h (l1 ++ l2) acc = runLines h l2 (runLines h l1 acc) := by
  induction l1 generalizing acc with
  | nil => rfl
  | cons l rest ih =>
    rcases acc with ⟨o, flag⟩
    cases flag
    · simp only [List.cons_append, runLines]
      cases h l with
      | next es => exact ih _
      | stop es => exact (runLines_halted h _ _ rfl).symm
      | fail es e => exact (runLines_halted h _ _ rfl).symm
    · rw [runLines_halted h _ _ rfl, runLines_halted h _ _ rfl,
        runLines_halted h _ _ rfl]

/-- A returned task ignores a further transport result. -/
theorem stepChunk_halted (h : String → LineStep ε) (netE : ε) (st : TaskState ε)
    (c : Chunk) (hh : st.halted = true) : stepChunk h netE st c = st := by
  rcases st with ⟨o, buf, halted⟩
  simp only [TaskState.halted] at hh
  subst hh
  cases c <;> rfl

/-- A returned task ignores all further transport results. -/
theorem foldl_stepChunk_halted (h : String → LineStep ε) (netE : ε)
    (st : TaskState ε) (cs : List Chunk) (hh : st.halted = true) :
    cs.foldl (stepChunk h netE) st = st := by
  induction cs with
  | nil => rfl
  | cons c cs2 ih => rw [List.foldl_cons, stepChunk_halted h netE st c hh, ih]

/-- Feeding one byte chunk and then another is the same as feeding their
concatenation: the buffer carries exactly the bytes the line scan has not
consumed. -/
theorem stepChunk_bytes_append (h : String → LineStep ε) (netE : ε)
    (st : TaskState ε) (a b : List Nat) :
    stepChunk h netE (stepChunk h netE st (Chunk.bytes a)) (Chunk.bytes b) =
      stepChunk h netE st (Chunk.bytes (a ++ b)) := by
  rcases st with ⟨o, buf, halted⟩
  cases halted
  case true => rfl
  case false =>
    have hsplit : splitLines (buf ++ (a ++ b)) =
        ((splitLines (buf ++ a)).1 ++
            (splitLines ((splitLines (buf ++ a)).2 ++ b)).1,
          (splitLines ((splitLines (buf ++ a)).2 ++ b)).2) := by
      rw [← List.append_assoc]
      exact splitLines_append (buf ++ a) b
    rcases hE : runLines h ((splitLines (buf ++ a)).1.map decodeLine) (o, false) with
      ⟨ro, rflag⟩
    have hL1 : stepChunk h netE ⟨o, buf, false⟩ (Chunk.bytes a) =
        ⟨ro, if rflag then [] else (splitLines (buf ++ a)).2, rflag⟩ := by
      show (⟨(runLines h ((splitLines (buf ++ a)).1.map decodeLine) (o, false)).1,
          if (runLines h ((splitLines (buf ++ a)).1.map decodeLine) (o, false)).2 then []
          else (splitLines (buf ++ a)).2,
          (runLines h ((splitLines (buf ++ a)).1.map decodeLine) (o, false)).2⟩ :
          TaskState ε) = _
      rw [hE]
    have hRrun : runLines h ((splitLines (buf ++ (a ++ b))).1.map decodeLine) (o, false) =
        runLines h ((splitLines ((splitLines (buf ++ a)).2 ++ b)).1.map decodeLine)
          (ro, rflag) := by
      rw [hsplit]
      show runLines h (((splitLines (buf ++ a)).1 ++
          (splitLines ((splitLines (buf ++ a)).2 ++ b)).1).map decodeLine) (o, false) = _
      rw [List.map_append, runLines_append, hE]
    have hRHS : stepChunk h netE ⟨o, buf, false⟩ (Chunk.bytes (a ++ b)) =
        ⟨(runLines h ((splitLines (buf ++ (a ++ b))).1.map decodeLine) (o, false)).1,
          if (runLines h ((splitLines (buf ++ (a ++ b))).1.map decodeLine) (o, false)).2
          then [] else (splitLines (buf ++ (a ++ b))).2,
          (runLines h ((splitLines (buf ++ (a ++ b))).1.map decodeLine) (o, false)).2⟩ := rfl
    rw [hL1, hRHS, hRrun, hsplit]
    cases rflag
    case false => rfl
    case true =>
      rw [runLines_halted h _ _ rfl]
      rfl

/-- The buffer of a reachable state never contains a delimiter. -/
theorem stepChunk_buffer_noNL (h : String → LineStep ε) (netE : ε)
    (st : TaskState ε) (c : Chunk) (hb : noNL st.buffer) :
    noNL (stepChunk h netE st c).buffer := by
  rcases st with ⟨o, buf, halted⟩
  cases halted
  case true => exact hb
  case false =>
    cases c
    case failed => exact fun x hx => absurd hx (List.not_mem_nil x)
    case bytes bs =>
      show noNL (if (runLines h ((splitLines (buf ++ bs)).1.map decodeLine) (o, false)).2
        then [] else (splitLines (buf ++ bs)).2)
      by_cases hr : (runLines h ((splitLines (buf ++ bs)).1.map decodeLine) (o, false)).2
      · rw [if_pos hr]; exact fun x hx => absurd hx (List.not_mem_nil x)
      · rw [if_neg hr]; exact splitLines_rem_noNL (buf ++ bs)

/-- Folding a run of byte chunks equals feeding their concatenation
at once. -/
theorem foldl_stepChunk_bytes (h : String → LineStep ε) (netE : ε)
    (st : TaskState ε) (cs : List (List Nat)) (hb : noNL st.buffer) :
    (cs.map Chunk.bytes).foldl (stepChunk h netE) st =
      stepChunk h netE st (Chunk.bytes cs.flatten) := by
  induction cs generalizing st with
  | nil =>
    rcases st with ⟨o, buf, halted⟩
    cases halted
    case true => rfl
    case false =>
      show _ = (⟨(runLines h ((splitLines (buf ++ [])).1.map decodeLine) (o, false)).1,
          if (runLines h ((splitLines (buf ++ [])).1.map decodeLine) (o, false)).2
          then [] else (splitLines (buf ++ [])).2,
          (runLines h ((splitLines (buf ++ [])).1.map decodeLine) (o, false)).2⟩ :
          TaskState ε)
      rw [List.append_nil, splitLines_noNL buf hb]
      rfl
  | cons x cs2 ih =>
    have hb2 : noNL (stepChunk h netE st (Chunk.bytes x)).buffer :=
      stepChunk_buffer_noNL h netE st (Chunk.bytes x) hb
    calc ((x :: cs2).map Chunk.bytes).foldl (stepChunk h netE) st
        = (cs2.map Chunk.bytes).foldl (stepChunk h netE)
            (stepChunk h netE st (Chunk.bytes x)) := rfl
      _ = stepChunk h netE (stepChunk h netE st (Chunk.bytes x))
            (Chunk.bytes cs2.flatten) := ih _ hb2
      _ = stepChunk h netE st (Chunk.bytes (x ++ cs2.flatten)) :=
            stepChunk_bytes_append h netE st x cs2.flatten
      _ = stepChunk h netE st (Chunk.bytes (x :: cs2).flatten) := by
            rw [List.flatten_cons]

/-- Chunk-boundary invariance of the shared loop: any two chunkings of the
same payload produce the same channel items. -/
theorem runTask_chunking (h : String → LineStep ε) (netE : ε)
    (cs1 cs2 : List (List Nat)) (heq : cs1.flatten = cs2.flatten) :
    runTask h netE (cs1.map Chunk.bytes) = runTask h netE (cs2.map Chunk.bytes) := by
  unfold runTask
  rw [foldl_stepChunk_bytes h netE _ cs1 (by intro x hx; simp at hx),
    foldl_stepChunk_bytes h netE _ cs2 (by intro x hx; simp at hx), heq]

/-! ## Terminal-item lemmas -/

/-- Content items are error-free. -/
theorem errorFree_contents (es : List String) :
    errorFree ((es.map OutItem.content) : List (OutItem ε)) = true := by
  induction es with
  | nil => rfl
  | cons e rest ih => simp [errorFree, isContentItem, ih]

/-- `errorFree` distributes over append. -/
theorem errorFree_append (a b : List (OutItem ε)) :
    errorFree (a ++ b) = (errorFree a && errorFree b) :=
  List.all_append

/-- An error-free item list is trivially well terminated. -/
theorem wellTerminated_of_errorFree :
    ∀ l : List (OutItem ε), errorFree l = true → wellTerminated l = true
  | [], _ => rfl
  | [_], _ => rfl
  | x :: y :: rest, h => by
    simp only [errorFree, List.all_cons, Bool.and_eq_true] at h
    simp only [wellTerminated, Bool.and_eq_true]
    refine ⟨h.1, wellTerminated_of_errorFree (y :: rest) ?_⟩
    simp [errorFree, List.all_cons, h.2.1, h.2.2]

/-- Appending one error item to an error-free list keeps it well
terminated. -/
theorem wellTerminated_append_error (l : List (OutItem ε)) (e : ε)
    (h : errorFree l = true) : wellTerminated (l ++ [OutItem.error e]) = true := by
  induction l with
  | nil => rfl
  | cons x rest ih =>
    simp only [errorFree, List.all_cons, Bool.and_eq_true] at h
    cases rest with
    | nil => simp [wellTerminated, h.1]
    | cons y r2 =>
      simp only [List.cons_append, wellTerminated, Bool.and_eq_true]
      exact ⟨h.1, by simpa using ih (by simp [errorFree, List.all_cons, h.2])⟩

/-- Processing lines from an error-free accumulator: while the task has
not returned the output stays error-free, and when it returns the output
is well terminated. -/
theorem runLines_invariant (h : String → LineStep ε) (ls : List String) :
    ∀ o : List (OutItem ε), errorFree o = true →
      ((runLines h ls (o, false)).2 = false →
        errorFree (runLines h ls (o, false)).1 = true) ∧
      ((runLines h ls (o, false)).2 = true →
        wellTerminated (runLines h ls (o, false)).1 = true) := by
  induction ls with
  | nil =>
    intro o ho
    exact ⟨fun _ => ho, fun hh => by simp [runLines] at hh⟩
  | cons l ls2 ih =>
    intro o ho
    show ((runLines h (l :: ls2) (o, false)).2 = false →
        errorFree (runLines h (l :: ls2) (o, false)).1 = true) ∧ _
    cases hl : h l with
    | next es =>
      have hstep : runLines h (l :: ls2) (o, false) =
          runLines h ls2 (o ++ es.map OutItem.content, false) := by
        show (match h l with
          | LineStep.next es => runLines h ls2 (o ++ es.map OutItem.content, false)
          | LineStep.stop es => (o ++ es.map OutItem.content, true)
          | LineStep.fail es e =>
              (o ++ es.map OutItem.content ++ [OutItem.error e], true)) = _
        rw [hl]
      rw [hstep]
      exact ih _ (by simp [errorFree_append, ho, errorFree_contents])
    | stop es =>
      have hstep : runLines h (l :: ls2) (o, false) =
          (o ++ es.map OutItem.content, true) := by
        show (match h l with
          | LineStep.next es => runLines h ls2 (o ++ es.map OutItem.content, false)
          | LineStep.stop es => (o ++ es.map OutItem.content, true)
          | LineStep.fail es e =>
              (o ++ es.map OutItem.content ++ [OutItem.error e], true)) = _
        rw [hl]
      rw [hstep]
      refine ⟨fun hh => by simp at hh, fun _ => ?_⟩
      exact wellTerminated_of_errorFree _ (by simp [errorFree_append, ho, errorFree_contents])
    | fail es e =>
      have hstep : runLines h (l :: ls2) (o, false) =
          (o ++ es.map OutItem.content ++ [OutItem.error e], true) := by
        show (match h l with
          | LineStep.next es => runLines h ls2 (o ++ es.map OutItem.content, false)
          | LineStep.stop es => (o ++ es.map OutItem.content, true)
          | LineStep.fail es e =>
              (o ++ es.map OutItem.content ++ [OutItem.error e], true)) = _
        rw [hl]
      rw [hstep]
      refine ⟨fun hh => by simp at hh, fun _ => ?_⟩
      exact wellTerminated_append_error _ e
        (by simp [errorFree_append, ho, errorFree_contents])

/-- One transport step preserves the terminal-item invariant. -/
theorem stepChunk_invariant (h : String → LineStep ε) (netE : ε)
    (st : TaskState ε) (c : Chunk)
    (hst : (st.halted = false → errorFree st.out = true) ∧
      (st.halted = true → wellTerminated st.out = true)) :
    ((stepChunk h netE st c).halted = false →
      errorFree (stepChunk h netE st c).out = true) ∧
    ((stepChunk h netE st c).halted = true →
      wellTerminated (stepChunk h netE st c).out = true) := by
  rcases st with ⟨o, buf, halted⟩
  cases halted
  case true => exact hst
  case false =>
    have ho : errorFree o = true := hst.1 rfl
    cases c
    case failed =>
      refine ⟨fun hh => by simp [stepChunk] at hh, fun _ => ?_⟩
      exact wellTerminated_append_error o netE ho
    case bytes bs =>
      have := runLines_invariant h ((splitLines (buf ++ bs)).1.map decodeLine) o ho
      exact this

/-- The folded task state always satisfies the terminal-item invariant. -/
theorem foldl_stepChunk_invariant (h : String → LineStep ε) (netE : ε)
    (cs : List Chunk) :
    ∀ st : TaskState ε,
      ((st.halted = false → errorFree st.out = true) ∧
        (st.halted = true → wellTerminated st.out = true)) →
      (((cs.foldl (stepChunk h netE) st).halted = false →
          errorFree (cs.foldl (stepChunk h netE) st).out = true) ∧
        ((cs.foldl (stepChunk h netE) st).halted = true →
          wellTerminated (cs.foldl (stepChunk h netE) st).out = true)) := by
  induction cs with
  | nil => exact fun st hst => hst
  | cons c cs2 ih =>
    intro st hst
    exact ih _ (stepChunk_invariant h netE st c hst)

/-- Whatever the transport delivers, the item sequence placed on the
channel has every item before the last a content item: an error is only
ever the final item, and nothing follows it. -/
theorem runTask_wellTerminated (h : String → LineStep ε) (netE : ε)
    (cs : List Chunk) : wellTerminated (runTask h netE cs) = true := by
  have hinv := foldl_stepChunk_invariant h netE cs ⟨[], [], false⟩
    ⟨fun _ => rfl, fun hh => by simp at hh⟩
  unfold runTask
  cases hh : (cs.foldl (stepChunk h netE) ⟨[], [], false⟩).halted
  · exact wellTerminated_of_errorFree _ (hinv.1 hh)
  · exact hinv.2 hh

/-! ## Transport-error and single-line lemmas -/

/-- If the task is still live after `cs`, a transport failure makes the
network error the last item ever placed, whatever arrives afterwards and
whatever partial frame is buffered. -/
theorem runTask_transport_terminal (h : String → LineStep ε) (netE : ε)
    (cs more : List Chunk) (hlive : (streamState h netE cs).halted = false) :
    runTask h netE (cs ++ Chunk.failed :: more) =
      runTask h netE cs ++ [OutItem.error netE] := by
  unfold runTask
  unfold streamState at hlive
  rw [List.foldl_append, List.foldl_cons]
  rcases hst : cs.foldl (stepChunk h netE) ⟨[], [], false⟩ with ⟨o, buf, halted⟩
  rw [hst] at hlive
  simp only [TaskState.halted] at hlive
  subst hlive
  rw [foldl_stepChunk_halted h netE _ more rfl]
  rfl

/-- A delimiter-free chunk alone produces no channel item at all: every
byte stays in the buffer, no event and no error is emitted, and the task
stays live. -/
theorem runTask_noNL_silent (h : String → LineStep ε) (netE : ε)
    (bs : List Nat) (hb : noNL bs) :
    runTask h netE [Chunk.bytes bs] = [] ∧
      (streamState h netE [Chunk.bytes bs]).halted = false := by
  have hsplit : splitLines ([] ++ bs) = ([], bs) := by
    simpa using splitLines_noNL bs hb
  constructor
  · unfold runTask
    show (stepChunk h netE ⟨[], [], false⟩ (Chunk.bytes bs)).out = []
    show (runLines h ((splitLines ([] ++ bs)).1.map decodeLine) ([], false)).1 = []
    rw [hsplit]
    rfl
  · show (stepChunk h netE ⟨[], [], false⟩ (Chunk.bytes bs)).halted = false
    show (runLines h ((splitLines ([] ++ bs)).1.map decodeLine) ([], false)).2 = false
    rw [hsplit]
    rfl

/-- Feeding one complete line whose handler result is a terminal error:
the error is the only item, whatever arrives afterwards. -/
theorem runTask_fail_line (h : String → LineStep ε) (netE e0 : ε)
    (L : List Nat) (more : List Chunk) (hL : noNL L)
    (hh : h (decodeLine L) = LineStep.fail [] e0) :
    runTask h netE (Chunk.bytes (L ++ [10]) :: more) = [OutItem.error e0] := by
  have hsplit : splitLines ([] ++ (L ++ [10])) = ([L], []) := by
    simpa using splitLines_line L [] hL
  have hrun : runLines h [decodeLine L] (([] : List (OutItem ε)), false) =
      ([OutItem.error e0], true) := by
    show (match h (decodeLine L) with
      | LineStep.next es => runLines h [] (([] : List (OutItem ε)) ++
          es.map OutItem.content, false)
      | LineStep.stop es => ([] ++ es.map OutItem.content, true)
      | LineStep.fail es e =>
          ([] ++ es.map OutItem.content ++ [OutItem.error e], true)) = _
    rw [hh]
    rfl
  have hstep : stepChunk h netE ⟨[], [], false⟩ (Chunk.bytes (L ++ [10])) =
      ⟨[OutItem.error e0], [], true⟩ := by
    show (⟨(runLines h ((splitLines ([] ++ (L ++ [10]))).1.map decodeLine) ([], false)).1,
        if (runLines h ((splitLines ([] ++ (L ++ [10]))).1.map decodeLine) ([], false)).2
        then [] else (splitLines ([] ++ (L ++ [10]))).2,
        (runLines h ((splitLines ([] ++ (L ++ [10]))).1.map decodeLine) ([], false)).2⟩ :
        TaskState ε) = _
    rw [hsplit]
    show (⟨(runLines h [decodeLine L] ([], false)).1,
        if (runLines h [decodeLine L] ([], false)).2 then [] else [],
        (runLines h [decodeLine L] ([], false)).2⟩ : TaskState ε) = _
    rw [hrun]
    rfl
  unfold runTask
  rw [List.foldl_cons, hstep, foldl_stepChunk_halted h netE _ more rfl]

/-- Feeding three complete delimiter-free lines in one chunk runs the
per-line block over exactly those three decoded lines. -/
theorem runTask_three_lines (h : String → LineStep ε) (netE : ε)
    (L1 L2 L3 : List Nat) (h1 : noNL L1) (h2 : noNL L2) (h3 : noNL L3) :
    runTask h netE [Chunk.bytes (L1 ++ 10 :: (L2 ++ 10 :: (L3 ++ [10])))] =
      (runLines h [decodeLine L1, decodeLine L2, decodeLine L3] ([], false)).1 := by
  have hsplit : splitLines ([] ++ (L1 ++ 10 :: (L2 ++ 10 :: (L3 ++ [10])))) =
      ([L1, L2, L3], []) := by
    rw [List.nil_append, splitLines_line L1 _ h1, splitLines_line L2 _ h2,
      splitLines_line L3 _ h3]
    rfl
  unfold runTask
  rw [List.foldl_cons, List.foldl_nil]
  show (⟨(runLines h ((splitLines ([] ++ (L1 ++ 10 :: (L2 ++ 10 :: (L3 ++ [10]))))).1.map
        decodeLine) ([], false)).1,
      if (runLines h ((splitLines ([] ++ (L1 ++ 10 :: (L2 ++ 10 :: (L3 ++ [10]))))).1.map
        decodeLine) ([], false)).2
      then [] else (splitLines ([] ++ (L1 ++ 10 :: (L2 ++ 10 :: (L3 ++ [10]))))).2,
      (runLines h ((splitLines ([] ++ (L1 ++ 10 :: (L2 ++ 10 :: (L3 ++ [10]))))).1.map
        decodeLine) ([], false)).2⟩ : TaskState ε).out = _
  rw [hsplit]
  rfl

/-! ## Per-line step lemmas -/

/-- Unfolding one live line whose handler continues. -/
theorem runLines_cons_next (h : String → LineStep ε) (l : String)
    (ls : List String) (o : List (OutItem ε)) (es : List String)
    (hl : h l = LineStep.next es) :
    runLines h (l :: ls) (o, false) =
      runLines h ls (o ++ es.map OutItem.content, false) := by
  show (match h l with
    | LineStep.next es => runLines h ls (o ++ es.map OutItem.content, false)
    | LineStep.stop es => (o ++ es.map OutItem.content, true)
    | LineStep.fail es e => (o ++ es.map OutItem.content ++ [OutItem.error e], true)) = _
  rw [hl]

/-- Unfolding one live line whose handler closes the channel. -/
theorem runLines_cons_stop (h : String → LineStep ε) (l : String)
    (ls : List String) (o : List (OutItem ε)) (es : List String)
    (hl : h l = LineStep.stop es) :
    runLines h (l :: ls) (o, false) = (o ++ es.map OutItem.content, true) := by
  show (match h l with
    | LineStep.next es => runLines h ls (o ++ es.map OutItem.content, false)
    | LineStep.stop es => (o ++ es.map OutItem.content, true)
    | LineStep.fail es e => (o ++ es.map OutItem.content ++ [OutItem.error e], true)) = _
  rw [hl]

/-- Unfolding one live line whose handler sends a terminal error. -/
theorem runLines_cons_fail (h : String → LineStep ε) (l : String)
    (ls : List String) (o : List (OutItem ε)) (es : List String) (e : ε)
    (hl : h l = LineStep.fail es e) :
    runLines h (l :: ls) (o, false) =
      (o ++ es.map OutItem.content ++ [OutItem.error e], true) := by
  show (match h l with
    | LineStep.next es => runLines h ls (o ++ es.map OutItem.content, false)
    | LineStep.stop es => (o ++ es.map OutItem.content, true)
    | LineStep.fail es e => (o ++ es.map OutItem.content ++ [OutItem.error e], true)) = _
  rw [hl]

/-! ## Equivalence of the two Ollama stream tasks -/

/-- Handlers that agree on every line of a batch drive it identically. -/
theorem runLines_congr (h1 h2 : String → LineStep ε) (ls : List String)
    (acc : List (OutItem ε) × Bool) (hag : ∀ l ∈ ls, h1 l = h2 l) :
    runLines h1 ls acc = runLines h2 ls acc := by
  induction ls generalizing acc with
  | nil => rfl
  | cons l rest ih =>
    rcases acc with ⟨o, flag⟩
    cases flag
    case true => rfl
    case false =>
      have hl : h1 l = h2 l := hag l (List.mem_cons_self _ _)
      have hrest : ∀ x ∈ rest, h1 x = h2 x :=
        fun x hx => hag x (List.mem_cons_of_mem _ hx)
      show (match h1 l with
        | LineStep.next es => runLines h1 rest (o ++ es.map OutItem.content, false)
        | LineStep.stop es => (o ++ es.map OutItem.content, true)
        | LineStep.fail es e =>
            (o ++ es.map OutItem.content ++ [OutItem.error e], true)) =
        (match h2 l with
        | LineStep.next es => runLines h2 rest (o ++ es.map OutItem.content, false)
        | LineStep.stop es => (o ++ es.map OutItem.content, true)
        | LineStep.fail es e =>
            (o ++ es.map OutItem.content ++ [OutItem.error e], true))
      rw [hl]
      cases h2 l with
      | next es => exact ih _ hrest
      | stop es => rfl
      | fail es e => rfl

/-- Two per-line blocks that agree on every complete line the run over
`cs` can slice out of the buffer drive the shared transport loop to the
same final state. -/
theorem foldl_stepChunk_congr (h1 h2 : String → LineStep ε) (netE : ε) :
    ∀ (cs : List Chunk) (st : TaskState ε),
      (∀ L ∈ (splitLines (st.buffer ++ (cs.map chunkBytes).flatten)).1,
        h1 (decodeLine L) = h2 (decodeLine L)) →
      cs.foldl (stepChunk h1 netE) st = cs.foldl (stepChunk h2 netE) st := by
  intro cs
  induction cs with
  | nil => intro st _; rfl
  | cons c cs2 ih =>
    intro st hag
    rcases st with ⟨o, buf, halted⟩
    cases halted
    case true =>
      rw [List.foldl_cons, List.foldl_cons,
        stepChunk_halted h1 netE _ c rfl, stepChunk_halted h2 netE _ c rfl,
        foldl_stepChunk_halted h1 netE _ cs2 rfl,
        foldl_stepChunk_halted h2 netE _ cs2 rfl]
    case false =>
      cases c
      case failed =>
        rw [List.foldl_cons, List.foldl_cons]
        show cs2.foldl (stepChunk h1 netE) ⟨o ++ [OutItem.error netE], [], true⟩ =
          cs2.foldl (stepChunk h2 netE) ⟨o ++ [OutItem.error netE], [], true⟩
        rw [foldl_stepChunk_halted h1 netE _ cs2 rfl,
          foldl_stepChunk_halted h2 netE _ cs2 rfl]
      case bytes bs =>
        have hsplit := splitLines_append (buf ++ bs) ((cs2.map chunkBytes).flatten)
        have hagAll : ∀ L ∈ (splitLines ((buf ++ bs) ++
            (cs2.map chunkBytes).flatten)).1, h1 (decodeLine L) = h2 (decodeLine L) := by
          intro L hL
          apply hag
          simpa [chunkBytes, List.append_assoc] using hL
        have hag1 : ∀ L ∈ (splitLines (buf ++ bs)).1,
            h1 (decodeLine L) = h2 (decodeLine L) := by
          intro L hL
          apply hagAll
          rw [hsplit]
          exact List.mem_append_left _ hL
        have hrun : runLines h1 ((splitLines (buf ++ bs)).1.map decodeLine) (o, false) =
            runLines h2 ((splitLines (buf ++ bs)).1.map decodeLine) (o, false) := by
          apply runLines_congr
          intro l hl
          rcases List.mem_map.1 hl with ⟨L, hL, rfl⟩
          exact hag1 L hL
        have hstep : stepChunk h1 netE ⟨o, buf, false⟩ (Chunk.bytes bs) =
            stepChunk h2 netE ⟨o, buf, false⟩ (Chunk.bytes bs) := by
          show (⟨(runLines h1 ((splitLines (buf ++ bs)).1.map decodeLine) (o, false)).1,
              if (runLines h1 ((splitLines (buf ++ bs)).1.map decodeLine) (o, false)).2
              then [] else (splitLines (buf ++ bs)).2,
              (runLines h1 ((splitLines (buf ++ bs)).1.map decodeLine) (o, false)).2⟩ :
              TaskState ε) = _
          rw [hrun]
          rfl
        rw [List.foldl_cons, List.foldl_cons, hstep]
        cases hr : (runLines h2 ((splitLines (buf ++ bs)).1.map decodeLine) (o, false)).2
        case true =>
          have hh : (stepChunk h2 netE ⟨o, buf, false⟩ (Chunk.bytes bs)).halted = true := by
            show (runLines h2 ((splitLines (buf ++ bs)).1.map decodeLine) (o, false)).2 = true
            exact hr
          rw [foldl_stepChunk_halted h1 netE _ cs2 hh,
            foldl_stepChunk_halted h2 netE _ cs2 hh]
        case false =>
          apply ih
          intro L hL
          have hSbuf : (stepChunk h2 netE ⟨o, buf, false⟩ (Chunk.bytes bs)).buffer =
              (splitLines (buf ++ bs)).2 := by
            show (if (runLines h2 ((splitLines (buf ++ bs)).1.map decodeLine)
              (o, false)).2 then [] else (splitLines (buf ++ bs)).2) = _
            rw [hr]
            rfl
          rw [hSbuf] at hL
          apply hagAll
          rw [hsplit]
          exact List.mem_append_right _ hL

/-- On any line where the two decoders agree, the two per-line blocks
coincide. -/
theorem ferrous_line_agrees (line : String) (h : decodeAgrees line = true) :
    FerrousOllama.ollamaLine line = ollamaLine line := by
  by_cases hl : line = ""
  · subst hl
    rfl
  · unfold decodeAgrees at h
    cases hF : FerrousOllama.ollamaFromStr line <;> cases hL : ollamaFromStr line <;>
      rw [hF, hL] at h
    · simp [FerrousOllama.ollamaLine, ollamaLine, hl, hF, hL]
    · simp at h
    · simp at h
    · rename_i cf c
      have hcd : FerrousOllama.ollamaChunkContent cf = ollamaChunkContent c ∧
          cf.done = c.done := by
        simpa [chunkAgrees] using h
      simp [FerrousOllama.ollamaLine, ollamaLine, hl, hF, hL, hcd.1, hcd.2]

/-! ## The claims -/

/-- C1.  Chunk-boundary invariance: for every byte payload and every way of
splitting it into a sequence of chunks (one chunk, one byte per chunk, or
splits inside a multi-byte encoded character), every provider's stream task
emits the same item sequence, because line text is only decoded once a
complete newline-terminated line is assembled in the buffer. -/
theorem chunk_boundary_invariance (p : List Nat) (cs1 cs2 : List (List Nat))
    (h1 : cs1.flatten = p) (h2 : cs2.flatten = p) :
    openaiTask (cs1.map Chunk.bytes) = openaiTask (cs2.map Chunk.bytes) ∧
    anthropicTask (cs1.map Chunk.bytes) = anthropicTask (cs2.map Chunk.bytes) ∧
    llmOllamaTask (cs1.map Chunk.bytes) = llmOllamaTask (cs2.map Chunk.bytes) ∧
    ferrousOllamaTask (cs1.map Chunk.bytes) = ferrousOllamaTask (cs2.map Chunk.bytes) := by
  have he : cs1.flatten = cs2.flatten := by rw [h1, h2]
  exact ⟨runTask_chunking _ _ _ _ he, runTask_chunking _ _ _ _ he,
    runTask_chunking _ _ _ _ he, runTask_chunking _ _ _ _ he⟩

/-- Witness for C1 at a concrete payload, split against the whole payload
at byte offset 14, which falls between the two UTF-8 bytes of the final
multi-byte character. -/
theorem chunk_boundary_invariance_witness :
    openaiTask ([strBytes "data: [DONE]\né"].map Chunk.bytes) =
      openaiTask ([(strBytes "data: [DONE]\né").take 14,
        (strBytes "data: [DONE]\né").drop 14].map Chunk.bytes) ∧
    anthropicTask ([strBytes "data: [DONE]\né"].map Chunk.bytes) =
      anthropicTask ([(strBytes "data: [DONE]\né").take 14,
        (strBytes "data: [DONE]\né").drop 14].map Chunk.bytes) ∧
    llmOllamaTask ([strBytes "data: [DONE]\né"].map Chunk.bytes) =
      llmOllamaTask ([(strBytes "data: [DONE]\né").take 14,
        (strBytes "data: [DONE]\né").drop 14].map Chunk.bytes) ∧
    ferrousOllamaTask ([strBytes "data: [DONE]\né"].map Chunk.bytes) =
      ferrousOllamaTask ([(strBytes "data: [DONE]\né").take 14,
        (strBytes "data: [DONE]\né").drop 14].map Chunk.bytes) :=
  chunk_boundary_invariance (strBytes "data: [DONE]\né") _ _ (by simp) (by simp)

/-- C2.  Single terminal event: for every input chunk sequence and every
provider's stream task, an error item can only be the last item ever placed
on the channel (channel closure, standing for `StreamEnd`, is the end of the
item sequence by construction), so no event of any kind follows a terminal
item. -/
theorem single_terminal_event (cs : List Chunk) :
    wellTerminated (openaiTask cs) = true ∧
    wellTerminated (anthropicTask cs) = true ∧
    wellTerminated (llmOllamaTask cs) = true ∧
    wellTerminated (ferrousOllamaTask cs) = true :=
  ⟨runTask_wellTerminated _ _ cs, runTask_wellTerminated _ _ cs,
    runTask_wellTerminated _ _ cs, runTask_wellTerminated _ _ cs⟩

/-- C4 (amended).  No buffer maximum exists in the code: a line that never
terminates is buffered in full, produces no event and no error of any kind
(in particular no resource-exhausted `StreamError`), and leaves the stream
open, for every provider's task. -/
theorem no_buffer_bound (bs : List Nat) (hb : noNL bs) :
    openaiTask [Chunk.bytes bs] = [] ∧
    anthropicTask [Chunk.bytes bs] = [] ∧
    llmOllamaTask [Chunk.bytes bs] = [] ∧
    ferrousOllamaTask [Chunk.bytes bs] = [] ∧
    (streamState openaiLine OpenAIError.network [Chunk.bytes bs]).halted = false ∧
    (streamState anthropicLine AnthropicError.network [Chunk.bytes bs]).halted = false ∧
    (streamState ollamaLine OllamaError.network [Chunk.bytes bs]).halted = false ∧
    (streamState FerrousOllama.ollamaLine OllamaError.network
      [Chunk.bytes bs]).halted = false :=
  ⟨(runTask_noNL_silent _ _ bs hb).1, (runTask_noNL_silent _ _ bs hb).1,
    (runTask_noNL_silent _ _ bs hb).1, (runTask_noNL_silent _ _ bs hb).1,
    (runTask_noNL_silent _ _ bs hb).2, (runTask_noNL_silent _ _ bs hb).2,
    (runTask_noNL_silent _ _ bs hb).2, (runTask_noNL_silent _ _ bs hb).2⟩

/-- Witness for the amended C4 at a concrete two-byte unterminated line. -/
theorem no_buffer_bound_witness :
    openaiTask [Chunk.bytes [120, 121]] = [] ∧
    anthropicTask [Chunk.bytes [120, 121]] = [] ∧
    llmOllamaTask [Chunk.bytes [120, 121]] = [] ∧
    ferrousOllamaTask [Chunk.bytes [120, 121]] = [] ∧
    (streamState openaiLine OpenAIError.network [Chunk.bytes [120, 121]]).halted = false ∧
    (streamState anthropicLine AnthropicError.network
      [Chunk.bytes [120, 121]]).halted = false ∧
    (streamState ollamaLine OllamaError.network [Chunk.bytes [120, 121]]).halted = false ∧
    (streamState FerrousOllama.ollamaLine OllamaError.network
      [Chunk.bytes [120, 121]]).halted = false :=
  no_buffer_bound [120, 121] (by decide)

/-- Counterexample to C4 as stated: a single never-terminated line of
200001 bytes (exceeding any plausible configurable maximum) produces no
item at all on any provider's channel — no resource-exhausted error, no
termination. -/
theorem buffer_overflow_counterexample :
    openaiTask [Chunk.bytes (List.replicate 200001 120)] = [] ∧
    anthropicTask [Chunk.bytes (List.replicate 200001 120)] = [] ∧
    llmOllamaTask [Chunk.bytes (List.replicate 200001 120)] = [] := by
  have hb : noNL (List.replicate 200001 120) := by
    intro b hbm
    rw [List.eq_of_mem_replicate hbm]
    decide
  exact ⟨(runTask_noNL_silent _ _ _ hb).1, (runTask_noNL_silent _ _ _ hb).1,
    (runTask_noNL_silent _ _ _ hb).1⟩

/-- C8.  Transport error is immediately terminal: for every provider's
stream task, when reading the next chunk fails at the transport level, the
network-kind error is the last item placed on the channel, whatever was
buffered and whatever would arrive afterwards. -/
theorem transport_error_terminal :
    (∀ cs more, (streamState openaiLine OpenAIError.network cs).halted = false →
      openaiTask (cs ++ Chunk.failed :: more) =
        openaiTask cs ++ [OutItem.error OpenAIError.network]) ∧
    (∀ cs more, (streamState anthropicLine AnthropicError.network cs).halted = false →
      anthropicTask (cs ++ Chunk.failed :: more) =
        anthropicTask cs ++ [OutItem.error AnthropicError.network]) ∧
    (∀ cs more, (streamState ollamaLine OllamaError.network cs).halted = false →
      llmOllamaTask (cs ++ Chunk.failed :: more) =
        llmOllamaTask cs ++ [OutItem.error OllamaError.network]) ∧
    (∀ cs more, (streamState FerrousOllama.ollamaLine OllamaError.network cs).halted = false →
      ferrousOllamaTask (cs ++ Chunk.failed :: more) =
        ferrousOllamaTask cs ++ [OutItem.error OllamaError.network]) :=
  ⟨fun cs more hl => runTask_transport_terminal _ _ cs more hl,
    fun cs more hl => runTask_transport_terminal _ _ cs more hl,
    fun cs more hl => runTask_transport_terminal _ _ cs more hl,
    fun cs more hl => runTask_transport_terminal _ _ cs more hl⟩

/-- Witness for C8: a transport failure right after a buffered partial
frame, with further data pending, yields exactly the network error. -/
theorem transport_error_terminal_witness :
    openaiTask ([Chunk.bytes (strBytes "data: par")] ++ Chunk.failed ::
        [Chunk.bytes (strBytes "data: [DONE]\n")]) =
      openaiTask [Chunk.bytes (strBytes "data: par")] ++
        [OutItem.error OpenAIError.network] ∧
    anthropicTask ([Chunk.bytes (strBytes "data: par")] ++ Chunk.failed ::
        [Chunk.bytes (strBytes "data: par\n")]) =
      anthropicTask [Chunk.bytes (strBytes "data: par")] ++
        [OutItem.error AnthropicError.network] ∧
    llmOllamaTask ([Chunk.bytes (strBytes "data: par")] ++ Chunk.failed ::
        [Chunk.bytes (strBytes "x\n")]) =
      llmOllamaTask [Chunk.bytes (strBytes "data: par")] ++
        [OutItem.error OllamaError.network] ∧
    ferrousOllamaTask ([Chunk.bytes (strBytes "data: par")] ++ Chunk.failed ::
        [Chunk.bytes (strBytes "x\n")]) =
      ferrousOllamaTask [Chunk.bytes (strBytes "data: par")] ++
        [OutItem.error OllamaError.network] :=
  ⟨transport_error_terminal.1 _ _ (by decide),
    transport_error_terminal.2.1 _ _ (by decide),
    transport_error_terminal.2.2.1 _ _ (by decide),
    transport_error_terminal.2.2.2 _ _ (by decide)⟩

/-- C9.  Explicit provider error event is terminal with Provider kind: when
a complete `data: ` line of the Anthropic task decodes to an error event,
the `Other`-kind error carrying the event's message is delivered as the one
and only (hence last) item, the channel closes, and no further frames are
processed no matter what arrives afterwards. -/
theorem provider_error_event_terminal (L : List Nat) (pm : String)
    (d : AnthropicErrorDetail) (more : List Chunk) (hL : noNL L)
    (hstrip : stripLeading (decodeLine L) "data: " = some pm)
    (hparse : anthropicFromStr pm = some (AnthropicStreamChunk.error d)) :
    anthropicTask (Chunk.bytes (L ++ [10]) :: more) =
      [OutItem.error (AnthropicError.other d.message)] := by
  apply runTask_fail_line anthropicLine AnthropicError.network _ L more hL
  simp [anthropicLine, hstrip, hparse]

/-- C10 (implicit; corrected).  The two Ollama stream-task bodies are the
same machine over their decoders: on every line where the two crates'
JSON decoders agree (both reject it, or both accept it with the same
extracted content and `done` flag) the per-line blocks coincide, and on
every chunk sequence — transport errors included — all of whose complete
lines are decoded in agreement, the two tasks place identical item
sequences on their channels.  Against the spec-modelled
`ferrous-llm-ollama` decoder the agreement is not universal, so the
unconditional equivalence fails; see the counterexample. -/
theorem ollama_tasks_equivalent_on_agreement :
    (∀ line, decodeAgrees line = true →
      FerrousOllama.ollamaLine line = ollamaLine line) ∧
    (∀ cs : List Chunk,
      (∀ L ∈ runLinesOf cs, decodeAgrees (decodeLine L) = true) →
      ferrousOllamaTask cs = llmOllamaTask cs) := by
  refine ⟨fun line h => ferrous_line_agrees line h, ?_⟩
  intro cs hag
  unfold ferrousOllamaTask llmOllamaTask runTask
  have hfold := foldl_stepChunk_congr FerrousOllama.ollamaLine ollamaLine
    OllamaError.network cs ⟨[], [], false⟩ (by
      intro L hL
      apply ferrous_line_agrees
      apply hag
      simpa [runLinesOf] using hL)
  rw [hfold]

set_option maxRecDepth 10000 in
/-- Witness for C9 at a concrete error event followed by a frame that is
never processed. -/
theorem provider_error_event_terminal_witness :
    anthropicTask (Chunk.bytes (strBytes
        "data: \x7b\"type\":\"error\",\"error\":\x7b\"type\":\"overloaded_error\",\"message\":\"boom\"\x7d\x7d"
        ++ [10]) ::
      [Chunk.bytes (strBytes "data: \x7b\"type\":\"message_stop\"\x7d\n")]) =
    [OutItem.error (AnthropicError.other "boom")] :=
  provider_error_event_terminal
    (strBytes
      "data: \x7b\"type\":\"error\",\"error\":\x7b\"type\":\"overloaded_error\",\"message\":\"boom\"\x7d\x7d")
    "\x7b\"type\":\"error\",\"error\":\x7b\"type\":\"overloaded_error\",\"message\":\"boom\"\x7d\x7d"
    ⟨"overloaded_error", "boom"⟩
    [Chunk.bytes (strBytes "data: \x7b\"type\":\"message_stop\"\x7d\n")]
    (by decide) (by decide) (by rfl)

/-- A `data: ` line of the OpenAI task that is not the `[DONE]` sentinel
and fails JSON parsing falls through silently. -/
theorem openaiLine_malformed (line : String)
    (h1 : strStartsWith line "data: " = true) (h2 : strDrop line 6 ≠ "[DONE]")
    (h3 : openaiFromStr (strDrop line 6) = none) :
    openaiLine line = LineStep.next [] := by
  simp [openaiLine, h1, h2, h3]

/-- A `data: ` line of the Anthropic task that fails JSON parsing falls
through silently. -/
theorem anthropicLine_malformed (line pm : String)
    (h1 : stripLeading line "data: " = some pm) (h2 : anthropicFromStr pm = none) :
    anthropicLine line = LineStep.next [] := by
  simp [anthropicLine, h1, h2]

/-- A non-empty line of the `llm-ollama` task that fails JSON parsing
falls through silently. -/
theorem ollamaLine_malformed (line : String) (h1 : line ≠ "")
    (h2 : ollamaFromStr line = none) : ollamaLine line = LineStep.next [] := by
  simp [ollamaLine, h1, h2]

/-- A non-empty line of the `ferrous-llm-ollama` task that fails JSON
parsing falls through silently. -/
theorem ferrousOllamaLine_malformed (line : String) (h1 : line ≠ "")
    (h2 : FerrousOllama.ollamaFromStr line = none) :
    FerrousOllama.ollamaLine line = LineStep.next [] := by
  simp [FerrousOllama.ollamaLine, h1, h2]

/-- Three complete lines whose middle handler result is a silent fall
through: both outer lines' events are emitted, in order, and the stream is
not terminated. -/
theorem runTask_sandwich (h : String → LineStep ε) (netE : ε)
    (L1 M L2 : List Nat) (es1 es2 : List String)
    (n1 : noNL L1) (nm : noNL M) (n2 : noNL L2)
    (h1 : h (decodeLine L1) = LineStep.next es1)
    (hm : h (decodeLine M) = LineStep.next [])
    (h2 : h (decodeLine L2) = LineStep.next es2) :
    runTask h netE [Chunk.bytes (L1 ++ 10 :: (M ++ 10 :: (L2 ++ [10])))] =
      (es1 ++ es2).map OutItem.content := by
  rw [runTask_three_lines h netE L1 M L2 n1 nm n2,
    runLines_cons_next h _ _ _ _ h1, runLines_cons_next h _ _ _ _ hm,
    runLines_cons_next h _ _ _ _ h2]
  simp [runLines]

/-- C3.  Soft-failure isolation: for every provider's stream task, a
complete line whose payload fails JSON parsing is discarded without
emitting anything and without terminating the stream; in particular, with
a malformed frame between two frames whose handler emits events, both
outer frames' events are emitted in order. -/
theorem soft_failure_isolation :
    (∀ (L1 M L2 : List Nat) (es1 es2 : List String),
      noNL L1 → noNL M → noNL L2 →
      openaiLine (decodeLine L1) = LineStep.next es1 →
      openaiLine (decodeLine L2) = LineStep.next es2 →
      strStartsWith (decodeLine M) "data: " = true →
      strDrop (decodeLine M) 6 ≠ "[DONE]" →
      openaiFromStr (strDrop (decodeLine M) 6) = none →
      openaiLine (decodeLine M) = LineStep.next [] ∧
        openaiTask [Chunk.bytes (L1 ++ 10 :: (M ++ 10 :: (L2 ++ [10])))] =
          (es1 ++ es2).map OutItem.content) ∧
    (∀ (L1 M L2 : List Nat) (pm : String) (es1 es2 : List String),
      noNL L1 → noNL M → noNL L2 →
      anthropicLine (decodeLine L1) = LineStep.next es1 →
      anthropicLine (decodeLine L2) = LineStep.next es2 →
      stripLeading (decodeLine M) "data: " = some pm →
      anthropicFromStr pm = none →
      anthropicLine (decodeLine M) = LineStep.next [] ∧
        anthropicTask [Chunk.bytes (L1 ++ 10 :: (M ++ 10 :: (L2 ++ [10])))] =
          (es1 ++ es2).map OutItem.content) ∧
    (∀ (L1 M L2 : List Nat) (es1 es2 : List String),
      noNL L1 → noNL M → noNL L2 →
      ollamaLine (decodeLine L1) = LineStep.next es1 →
      ollamaLine (decodeLine L2) = LineStep.next es2 →
      decodeLine M ≠ "" →
      ollamaFromStr (decodeLine M) = none →
      ollamaLine (decodeLine M) = LineStep.next [] ∧
        llmOllamaTask [Chunk.bytes (L1 ++ 10 :: (M ++ 10 :: (L2 ++ [10])))] =
          (es1 ++ es2).map OutItem.content) ∧
    (∀ (L1 M L2 : List Nat) (es1 es2 : List String),
      noNL L1 → noNL M → noNL L2 →
      FerrousOllama.ollamaLine (decodeLine L1) = LineStep.next es1 →
      FerrousOllama.ollamaLine (decodeLine L2) = LineStep.next es2 →
      decodeLine M ≠ "" →
      FerrousOllama.ollamaFromStr (decodeLine M) = none →
      FerrousOllama.ollamaLine (decodeLine M) = LineStep.next [] ∧
        ferrousOllamaTask [Chunk.bytes (L1 ++ 10 :: (M ++ 10 :: (L2 ++ [10])))] =
          (es1 ++ es2).map OutItem.content) := by
  refine ⟨?_, ?_, ?_, ?_⟩
  · intro L1 M L2 es1 es2 n1 nm n2 h1 h2 m1 m2 m3
    have hm := openaiLine_malformed (decodeLine M) m1 m2 m3
    exact ⟨hm, runTask_sandwich _ _ L1 M L2 es1 es2 n1 nm n2 h1 hm h2⟩
  · intro L1 M L2 pm es1 es2 n1 nm n2 h1 h2 m1 m2
    have hm := anthropicLine_malformed (decodeLine M) pm m1 m2
    exact ⟨hm, runTask_sandwich _ _ L1 M L2 es1 es2 n1 nm n2 h1 hm h2⟩
  · intro L1 M L2 es1 es2 n1 nm n2 h1 h2 m1 m2
    have hm := ollamaLine_malformed (decodeLine M) m1 m2
    exact ⟨hm, runTask_sandwich _ _ L1 M L2 es1 es2 n1 nm n2 h1 hm h2⟩
  · intro L1 M L2 es1 es2 n1 nm n2 h1 h2 m1 m2
    have hm := ferrousOllamaLine_malformed (decodeLine M) m1 m2
    exact ⟨hm, runTask_sandwich _ _ L1 M L2 es1 es2 n1 nm n2 h1 hm h2⟩

set_option maxRecDepth 20000 in
/-- Witness for C3: a malformed frame between two valid delta frames, for
each provider. -/
theorem soft_failure_isolation_witness :
    (openaiLine (decodeLine (strBytes "data: \x7boops")) = LineStep.next [] ∧
      openaiTask [Chunk.bytes
        (strBytes "data: \x7b\"id\":\"1\",\"object\":\"c\",\"created\":1,\"model\":\"m\",\"choices\":[\x7b\"index\":0,\"delta\":\x7b\"content\":\"A\"\x7d\x7d]\x7d"
          ++ 10 :: (strBytes "data: \x7boops"
          ++ 10 :: (strBytes "data: \x7b\"id\":\"1\",\"object\":\"c\",\"created\":1,\"model\":\"m\",\"choices\":[\x7b\"index\":0,\"delta\":\x7b\"content\":\"B\"\x7d\x7d]\x7d"
          ++ [10])))] = (["A"] ++ ["B"]).map OutItem.content) ∧
    (anthropicLine (decodeLine (strBytes "data: \x7boops")) = LineStep.next [] ∧
      anthropicTask [Chunk.bytes
        (strBytes "data: \x7b\"type\":\"content_block_delta\",\"index\":0,\"delta\":\x7b\"type\":\"text_delta\",\"text\":\"A\"\x7d\x7d"
          ++ 10 :: (strBytes "data: \x7boops"
          ++ 10 :: (strBytes "data: \x7b\"type\":\"content_block_delta\",\"index\":0,\"delta\":\x7b\"type\":\"text_delta\",\"text\":\"B\"\x7d\x7d"
          ++ [10])))] = (["A"] ++ ["B"]).map OutItem.content) ∧
    (ollamaLine (decodeLine (strBytes "oops")) = LineStep.next [] ∧
      llmOllamaTask [Chunk.bytes
        (strBytes "\x7b\"model\":\"m\",\"created_at\":\"t\",\"message\":\x7b\"role\":\"a\",\"content\":\"A\"\x7d,\"done\":false\x7d"
          ++ 10 :: (strBytes "oops"
          ++ 10 :: (strBytes "\x7b\"model\":\"m\",\"created_at\":\"t\",\"message\":\x7b\"role\":\"a\",\"content\":\"B\"\x7d,\"done\":false\x7d"
          ++ [10])))] = (["A"] ++ ["B"]).map OutItem.content) ∧
    (FerrousOllama.ollamaLine (decodeLine (strBytes "oops")) = LineStep.next [] ∧
      ferrousOllamaTask [Chunk.bytes
        (strBytes "\x7b\"model\":\"m\",\"created_at\":\"t\",\"message\":\x7b\"role\":\"a\",\"content\":\"A\"\x7d,\"done\":false\x7d"
          ++ 10 :: (strBytes "oops"
          ++ 10 :: (strBytes "\x7b\"model\":\"m\",\"created_at\":\"t\",\"message\":\x7b\"role\":\"a\",\"content\":\"B\"\x7d,\"done\":false\x7d"
          ++ [10])))] = (["A"] ++ ["B"]).map OutItem.content) :=
  ⟨soft_failure_isolation.1 _ _ _ ["A"] ["B"] (by decide) (by decide) (by decide)
      (by decide) (by decide) (by decide) (by decide) (by decide),
    soft_failure_isolation.2.1 _ _ _ "\x7boops" ["A"] ["B"] (by decide) (by decide)
      (by decide) (by rfl) (by rfl) (by decide) (by rfl),
    soft_failure_isolation.2.2.1 _ _ _ ["A"] ["B"] (by decide) (by decide) (by decide)
      (by decide) (by decide) (by decide) (by decide),
    soft_failure_isolation.2.2.2 _ _ _ ["A"] ["B"] (by decide) (by decide) (by decide)
      (by decide) (by decide) (by decide) (by decide)⟩

set_option maxRecDepth 20000 in
/-- Counterexample to C5 as stated: on the spec's exact Scenario A input
the Anthropic task emits no content delta at all — the first line's payload
lacks the `index` field that the derived `Deserialize` of
`AnthropicStreamChunk::ContentBlockDelta` requires, so the frame is
discarded as malformed; only the `message_stop` termination happens. -/
theorem scenario_sse_typed_counterexample :
    anthropicTask [Chunk.bytes (strBytes
        ("data: \x7b\"type\":\"content_block_delta\",\"delta\":\x7b\"type\":\"text_delta\",\"text\":\"Hi\"\x7d\x7d\n"
          ++ "data: \x7b\"type\":\"message_stop\"\x7d\n"))] = [] ∧
    anthropicTask [Chunk.bytes (strBytes
        ("data: \x7b\"type\":\"content_block_delta\",\"delta\":\x7b\"type\":\"text_delta\",\"text\":\"Hi\"\x7d\x7d\n"
          ++ "data: \x7b\"type\":\"message_stop\"\x7d\n"))] ≠
      [OutItem.content "Hi"] := by
  have h : anthropicTask [Chunk.bytes (strBytes
      ("data: \x7b\"type\":\"content_block_delta\",\"delta\":\x7b\"type\":\"text_delta\",\"text\":\"Hi\"\x7d\x7d\n"
        ++ "data: \x7b\"type\":\"message_stop\"\x7d\n"))] = [] := by decide
  exact ⟨h, by rw [h]; simp⟩

set_option maxRecDepth 20000 in
/-- C5 (amended).  SSE-typed termination, with the `index` field the
decoder requires added to the delta line: the indexed delta line then the
`message_stop` line produce exactly one content delta "Hi" and then stream
end; a bare `event: message_stop` line terminates the stream even with no
`data:` line, ignoring every later frame; and any line that neither starts
with `data: ` nor with `event: message_stop` (blank lines included) emits
nothing. -/
theorem scenario_sse_typed_amended :
    anthropicTask [Chunk.bytes (strBytes
        ("data: \x7b\"type\":\"content_block_delta\",\"index\":0,\"delta\":\x7b\"type\":\"text_delta\",\"text\":\"Hi\"\x7d\x7d\n"
          ++ "data: \x7b\"type\":\"message_stop\"\x7d\n"))] = [OutItem.content "Hi"] ∧
    anthropicTask [Chunk.bytes (strBytes "event: message_stop\n"),
      Chunk.bytes (strBytes
        "data: \x7b\"type\":\"content_block_delta\",\"index\":0,\"delta\":\x7b\"type\":\"text_delta\",\"text\":\"Hi\"\x7d\x7d\n")] =
      [] ∧
    (∀ line, stripLeading line "data: " = none →
      strStartsWith line "event: message_stop" = false →
      anthropicLine line = LineStep.next []) ∧
    anthropicLine "" = LineStep.next [] := by
  refine ⟨by decide, by decide, ?_, by decide⟩
  intro line hs he
  simp [anthropicLine, hs, he]

/-- Witness for the amended C5 at a concrete unrecognized-prefix line. -/
theorem scenario_sse_typed_amended_witness :
    anthropicLine ": ping" = LineStep.next [] :=
  scenario_sse_typed_amended.2.2.1 ": ping" (by decide) (by decide)

set_option maxRecDepth 20000 in
/-- Counterexample to C6 as stated: on the spec's exact Scenario B input
the `llm-ollama` task emits nothing and does not terminate — both lines
lack the `model` and `created_at` fields that the derived `Deserialize` of
`OllamaStreamChunk` requires (and the message lacks `role`), so both
frames, including the `done: true` one, are discarded as malformed. -/
theorem scenario_ndjson_counterexample :
    llmOllamaTask [Chunk.bytes (strBytes
        ("\x7b\"message\":\x7b\"content\":\"Hi\"\x7d,\"done\":false\x7d\n"
          ++ "\x7b\"message\":\x7b\"content\":\"\"\x7d,\"done\":true\x7d\n"))] = [] ∧
    llmOllamaTask [Chunk.bytes (strBytes
        ("\x7b\"message\":\x7b\"content\":\"Hi\"\x7d,\"done\":false\x7d\n"
          ++ "\x7b\"message\":\x7b\"content\":\"\"\x7d,\"done\":true\x7d\n"))] ≠
      [OutItem.content "Hi"] ∧
    (streamState ollamaLine OllamaError.network [Chunk.bytes (strBytes
        ("\x7b\"message\":\x7b\"content\":\"Hi\"\x7d,\"done\":false\x7d\n"
          ++ "\x7b\"message\":\x7b\"content\":\"\"\x7d,\"done\":true\x7d\n"))]).halted =
      false := by
  have h : llmOllamaTask [Chunk.bytes (strBytes
      ("\x7b\"message\":\x7b\"content\":\"Hi\"\x7d,\"done\":false\x7d\n"
        ++ "\x7b\"message\":\x7b\"content\":\"\"\x7d,\"done\":true\x7d\n"))] = [] := by decide
  exact ⟨h, by rw [h]; simp, by decide⟩

set_option maxRecDepth 20000 in
/-- C6 (amended).  NDJSON termination with empty-delta suppression, with
the required `model`, `created_at` and `role` fields added: the content
line then the empty-content `done: true` line produce exactly one delta
"Hi" and then stream end (shown by a third, would-be "Bye" line never
being emitted), no event is emitted for the empty content; and in general
every payload that decodes with `done == true` closes the channel after
its (non-empty) content. -/
theorem scenario_ndjson_amended :
    llmOllamaTask [Chunk.bytes (strBytes
        ("\x7b\"model\":\"m\",\"created_at\":\"t\",\"message\":\x7b\"role\":\"a\",\"content\":\"Hi\"\x7d,\"done\":false\x7d\n"
          ++ "\x7b\"model\":\"m\",\"created_at\":\"t\",\"message\":\x7b\"role\":\"a\",\"content\":\"\"\x7d,\"done\":true\x7d\n"
          ++ "\x7b\"model\":\"m\",\"created_at\":\"t\",\"message\":\x7b\"role\":\"a\",\"content\":\"Bye\"\x7d,\"done\":false\x7d\n"))] =
      [OutItem.content "Hi"] ∧
    (∀ (line : String) (c : OllamaStreamChunk), ollamaFromStr line = some c →
      c.done = true →
      ollamaLine line = LineStep.stop
        (if ollamaChunkContent c ≠ "" then [ollamaChunkContent c] else [])) := by
  refine ⟨by decide, ?_⟩
  intro line c h1 h2
  have hne : line ≠ "" := by
    intro he
    rw [he, show ollamaFromStr "" = none from rfl] at h1
    exact absurd h1 (by simp)
  simp [ollamaLine, hne, h1, h2]

set_option maxRecDepth 20000 in
/-- Witness for the amended C6 at a concrete `done: true` payload with
empty content. -/
theorem scenario_ndjson_amended_witness :
    ollamaLine "\x7b\"model\":\"m\",\"created_at\":\"t\",\"message\":\x7b\"role\":\"a\",\"content\":\"\"\x7d,\"done\":true\x7d" =
      LineStep.stop [] :=
  scenario_ndjson_amended.2
    "\x7b\"model\":\"m\",\"created_at\":\"t\",\"message\":\x7b\"role\":\"a\",\"content\":\"\"\x7d,\"done\":true\x7d"
    ⟨"m", "t", some ⟨"a", "", none⟩, none, true, none, none, none, none, none, none⟩
    (by decide) (by decide)

set_option maxRecDepth 20000 in
/-- Counterexample to C7 as stated: on the spec's exact Scenario C input
the OpenAI task emits no content delta — the payload lacks the `id`,
`object`, `created` and `model` fields (and the choice lacks `index`) that
the derived `Deserialize` of `OpenAIStreamChunk` requires, so the frame is
discarded as malformed; only the `[DONE]` termination happens. -/
theorem scenario_sse_plain_counterexample :
    openaiTask [Chunk.bytes (strBytes
        ("data: \x7b\"choices\":[\x7b\"delta\":\x7b\"content\":\"Hi\"\x7d\x7d]\x7d\n\n"
          ++ "data: [DONE]\n\n"))] = [] ∧
    openaiTask [Chunk.bytes (strBytes
        ("data: \x7b\"choices\":[\x7b\"delta\":\x7b\"content\":\"Hi\"\x7d\x7d]\x7d\n\n"
          ++ "data: [DONE]\n\n"))] ≠ [OutItem.content "Hi"] := by
  have h : openaiTask [Chunk.bytes (strBytes
      ("data: \x7b\"choices\":[\x7b\"delta\":\x7b\"content\":\"Hi\"\x7d\x7d]\x7d\n\n"
        ++ "data: [DONE]\n\n"))] = [] := by decide
  exact ⟨h, by rw [h]; simp⟩

set_option maxRecDepth 20000 in
/-- C7 (amended).  SSE-plain termination, with the fields the decoder
requires added to the delta payload: the full delta line then `data:
[DONE]` produce exactly one content delta "Hi" and then stream end (a
following would-be "Bye" frame is never processed), the literal `[DONE]`
payload closes the channel before any JSON parsing, and any line not
beginning with `data: ` emits nothing. -/
theorem scenario_sse_plain_amended :
    openaiTask [Chunk.bytes (strBytes
        ("data: \x7b\"id\":\"1\",\"object\":\"chat.completion.chunk\",\"created\":1,\"model\":\"m\",\"choices\":[\x7b\"index\":0,\"delta\":\x7b\"content\":\"Hi\"\x7d\x7d]\x7d\n\n"
          ++ "data: [DONE]\n\n"
          ++ "data: \x7b\"id\":\"1\",\"object\":\"chat.completion.chunk\",\"created\":1,\"model\":\"m\",\"choices\":[\x7b\"index\":0,\"delta\":\x7b\"content\":\"Bye\"\x7d\x7d]\x7d\n"))] =
      [OutItem.content "Hi"] ∧
    openaiLine "data: [DONE]" = LineStep.stop [] ∧
    (∀ line, strStartsWith line "data: " = false →
      openaiLine line = LineStep.next []) := by
  refine ⟨by decide, by decide, ?_⟩
  intro line hs
  simp [openaiLine, hs]

/-- Witness for the amended C7 at a concrete non-`data: ` line. -/
theorem scenario_sse_plain_amended_witness :
    openaiLine ": keep-alive" = LineStep.next [] :=
  scenario_sse_plain_amended.2.2 ": keep-alive" (by decide)

set_option maxRecDepth 20000 in
/-- Witness for the corrected C10: on a full-field frame the two decoders
agree (the spec-modelled one ignores the extra fields), so the per-line
blocks coincide on it and a run made of that frame plus a transport
failure is processed identically by the two tasks. -/
theorem ollama_tasks_equivalent_on_agreement_witness :
    FerrousOllama.ollamaLine
        "\x7b\"model\":\"m\",\"created_at\":\"t\",\"message\":\x7b\"role\":\"a\",\"content\":\"Hi\"\x7d,\"done\":false\x7d" =
      ollamaLine
        "\x7b\"model\":\"m\",\"created_at\":\"t\",\"message\":\x7b\"role\":\"a\",\"content\":\"Hi\"\x7d,\"done\":false\x7d" ∧
    ferrousOllamaTask [Chunk.bytes (strBytes
        "\x7b\"model\":\"m\",\"created_at\":\"t\",\"message\":\x7b\"role\":\"a\",\"content\":\"Hi\"\x7d,\"done\":false\x7d\n"),
      Chunk.failed] =
    llmOllamaTask [Chunk.bytes (strBytes
        "\x7b\"model\":\"m\",\"created_at\":\"t\",\"message\":\x7b\"role\":\"a\",\"content\":\"Hi\"\x7d,\"done\":false\x7d\n"),
      Chunk.failed] :=
  ⟨ollama_tasks_equivalent_on_agreement.1 _ (by decide),
    ollama_tasks_equivalent_on_agreement.2 _ (by decide)⟩

set_option maxRecDepth 20000 in
/-- Counterexample to C10 as stated, at the spec's own Scenario B frame:
the spec-modelled `ferrous-llm-ollama` decoder accepts
`{"message":{"content":"Hi"},"done":false}` and that task emits the
delta, while `llm-ollama`'s derived decoder also requires `model`,
`created_at` and the message `role`, rejects the frame, and its task
emits nothing — the two tasks differ on this input. -/
theorem ollama_tasks_divergence :
    ferrousOllamaTask [Chunk.bytes (strBytes
        "\x7b\"message\":\x7b\"content\":\"Hi\"\x7d,\"done\":false\x7d\n")] =
      [OutItem.content "Hi"] ∧
    llmOllamaTask [Chunk.bytes (strBytes
        "\x7b\"message\":\x7b\"content\":\"Hi\"\x7d,\"done\":false\x7d\n")] = [] ∧
    ferrousOllamaTask [Chunk.bytes (strBytes
        "\x7b\"message\":\x7b\"content\":\"Hi\"\x7d,\"done\":false\x7d\n")] ≠
      llmOllamaTask [Chunk.bytes (strBytes
        "\x7b\"message\":\x7b\"content\":\"Hi\"\x7d,\"done\":false\x7d\n")] := by
  have h1 : ferrousOllamaTask [Chunk.bytes (strBytes
      "\x7b\"message\":\x7b\"content\":\"Hi\"\x7d,\"done\":false\x7d\n")] =
      [OutItem.content "Hi"] := by decide
  have h2 : llmOllamaTask [Chunk.bytes (strBytes
      "\x7b\"message\":\x7b\"content\":\"Hi\"\x7d,\"done\":false\x7d\n")] = [] := by decide
  exact ⟨h1, h2, by rw [h1, h2]; simp⟩
